import Mathlib

/-!
ALUA acquisition loop: skin-conductance (SCL) sampling, filtering, windowing.

Shallow embedding of `ARDUINO_CODE/src/conduttanza.h` and of the `loop` of
`ARDUINO_CODE/src/main.cpp`.

Conventions of the embedding.

* The global variables of `conduttanza.h` are the fields of `State`; every function
  that mutates them takes a `State` and returns the new one.  The two-element arrays
  are pairs: `x.1` is `x[0]`, `x.2` is `x[1]`.
* `unsigned long` values are naturals below `2 ^ 32`; the unsigned subtraction wraps
  (`usub`).  Signed `int` / `long` values are mathematical integers: signed overflow is
  undefined in C++, so the embedding describes the runs on which it does not occur.
  `updateSCLTarget` is the same function with every signed operation wrapped to the 16
  and 32 bits of the AVR target; it is used where a run can overflow.
* `float` values are the rationals they denote and every `float` operation rounds its
  exact result to single precision (`roundF32`); a division by zero is a failure
  (`none`), so a function that returns `some` has performed none.
* The environment is explicit: `millis()` is the argument `now`, the two `analogRead`
  results are the arguments `adc0`, `adc1` (consumed only if the read is executed), the
  results of `random(0, 2)` are the arguments `fake0`, `fake1` (consumed only if the
  call is executed).
* `Serial` is the field `serial` of the state: the list of lines printed so far.
-/

namespace Alua

/-! ## Constants (`conduttanza.h`, lines 13-35) -/

def EXPERIMENT_DURATION : Nat := 45000

def SCL_START_DELAY : Nat := 5000

def SCL_VALID_DURATION : Nat := EXPERIMENT_DURATION - SCL_START_DELAY

def SCL_HALF_DURATION : Nat := SCL_VALID_DURATION / 2

def SCL_SAMPLE_INTERVAL : Nat := 50

def SCL_MIN_VALID : Int := 0

def SCL_MAX_VALID : Int := 500

def SCL_MAX_STEP : Int := 80

/-- Number of values of an `unsigned long` (32 bits on the target). -/
def ULONG_RANGE : Nat := 4294967296

/-- Unsigned 32-bit subtraction `a - b`, wrapping modulo `2 ^ 32`. -/
def usub (a b : Nat) : Nat :=
  (a % ULONG_RANGE + ULONG_RANGE - b % ULONG_RANGE) % ULONG_RANGE

/-- The Arduino `abs` macro, `((x) > 0 ? (x) : -(x))`. -/
def absInt (x : Int) : Int := if x > 0 then x else -x

/-! ## Global state (`conduttanza.h`, lines 5-55) -/

/-- One line (or fragment) written to `Serial`.  The numeric payloads are the values
handed to `Serial.print`; the fixed texts are identified by their constructor. -/
inductive SerialLine where
  /-- The empty `Serial.println()`. -/
  | blank
  /-- "=== VALUTAZIONE FINALE TREND SCL (5–25 s vs 25–45 s) ===". -/
  | header
  /-- "Persona i (SCL):". -/
  | persona (i : Nat)
  /-- "  Arousal SCL: DATI INSUFFICIENTI (non posso confrontare le due metà).". -/
  | insufficient
  /-- "  Arousal SCL (valore simulato): SI" when `si`, "... NO" otherwise. -/
  | simulated (si : Bool)
  /-- "  mean SCL prima metà (5–25 s)      = v". -/
  | meanFirst (v : ℚ)
  /-- "  mean SCL seconda metà (25–45 s)   = v". -/
  | meanSecond (v : ℚ)
  /-- "  delta SCL (prima - seconda)       = v". -/
  | delta (v : ℚ)
  /-- "  variazione relativa SCL           = v %". -/
  | relative (v : ℚ)
  /-- "  Arousal SCL: SI (conduttanza aumentata >=10%).". -/
  | arousalSI
  /-- "  Arousal SCL: NO.". -/
  | arousalNO
  /-- "==============================================================". -/
  | footer
  /-- "CAPACITA: v" of `letturaContatto`. -/
  | capacita (v : Int)
  /-- The streaming line "exportRaw0 exportRaw1 valoreContatto" of `loop`. -/
  | stream (r0 r1 c : Int)
  /-- "Esperimento SCL iniziato" followed by an empty line (`setupConduttanza`). -/
  | started
  deriving DecidableEq

/-- The global variables of `conduttanza.h`, together with the text written so far to
`Serial` (oldest line first). -/
structure State where
  exportRaw0 : Int
  exportRaw1 : Int
  firstHalfSumSCL : Int × Int
  firstHalfCountSCL : Int × Int
  secondHalfSumSCL : Int × Int
  secondHalfCountSCL : Int × Int
  lastSCLSampleElapsed : Nat
  lastRaw0 : Int
  lastRaw1 : Int
  experimentStart : Nat
  trendEvaluated : Bool
  serial : List SerialLine
  deriving DecidableEq

/-- The initial values of the globals (the initialisers of lines 5-55). -/
def State.init : State where
  exportRaw0 := 0
  exportRaw1 := 0
  firstHalfSumSCL := (0, 0)
  firstHalfCountSCL := (0, 0)
  secondHalfSumSCL := (0, 0)
  secondHalfCountSCL := (0, 0)
  lastSCLSampleElapsed := 0
  lastRaw0 := -1
  lastRaw1 := -1
  experimentStart := 0
  trendEvaluated := false
  serial := []

/-! ## `updateSCL` (`conduttanza.h`, lines 90-149) -/

/-- The flag `valid0` / `valid1` of `updateSCL` (lines 120-122 and 135-137): starts
`true`, cleared by the range test, cleared by the step test. -/
def sclValid (raw lastRaw : Int) : Bool :=
  let valid := true
  let valid := if raw < SCL_MIN_VALID ∨ raw > SCL_MAX_VALID then false else valid
  let valid := if lastRaw ≠ -1 ∧ absInt (raw - lastRaw) > SCL_MAX_STEP then false else valid
  valid

/-- Body of `updateSCL(elapsed)`; `adc0`, `adc1` are what `analogRead(SCL_INPUT0)` and
`analogRead(SCL_INPUT1)` return when the reads of lines 98-99 are executed. -/
def updateSCL (s : State) (elapsed : Nat) (adc0 adc1 : Int) : State :=
  if usub elapsed s.lastSCLSampleElapsed < SCL_SAMPLE_INTERVAL then
    s
  else
    let s := { s with lastSCLSampleElapsed := elapsed }
    let raw0 := 1023 - adc0
    let raw1 := 1023 - adc1
    let s := { s with exportRaw0 := raw0, exportRaw1 := raw1 }
    if elapsed > EXPERIMENT_DURATION then
      s
    else if elapsed < SCL_START_DELAY then
      s
    else
      let sclElapsed := usub elapsed SCL_START_DELAY
      let valid0 := sclValid raw0 s.lastRaw0
      let s :=
        if valid0 then
          let s :=
            if sclElapsed ≤ SCL_HALF_DURATION then
              { s with firstHalfSumSCL := (s.firstHalfSumSCL.1 + raw0, s.firstHalfSumSCL.2),
                       firstHalfCountSCL := (s.firstHalfCountSCL.1 + 1, s.firstHalfCountSCL.2) }
            else
              { s with secondHalfSumSCL := (s.secondHalfSumSCL.1 + raw0, s.secondHalfSumSCL.2),
                       secondHalfCountSCL := (s.secondHalfCountSCL.1 + 1, s.secondHalfCountSCL.2) }
          { s with lastRaw0 := raw0 }
        else s
      let valid1 := sclValid raw1 s.lastRaw1
      let s :=
        if valid1 then
          let s :=
            if sclElapsed ≤ SCL_HALF_DURATION then
              { s with firstHalfSumSCL := (s.firstHalfSumSCL.1, s.firstHalfSumSCL.2 + raw1),
                       firstHalfCountSCL := (s.firstHalfCountSCL.1, s.firstHalfCountSCL.2 + 1) }
            else
              { s with secondHalfSumSCL := (s.secondHalfSumSCL.1, s.secondHalfSumSCL.2 + raw1),
                       secondHalfCountSCL := (s.secondHalfCountSCL.1, s.secondHalfCountSCL.2 + 1) }
          { s with lastRaw1 := raw1 }
        else s
      s

/-! ## Single-precision arithmetic

`evaluateSCLTrend` computes in `float`.  A `float` value is modelled by the rational it
denotes; every operation is the exact operation followed by `roundF32`, the rounding to
the nearest value with a 24-bit significand, ties to even (IEEE 754 binary32).  The
exponent range is not modelled: the quantities of `evaluateSCLTrend` are quotients of
integers of at most 32 bits and stay far inside it.  A division by zero is reported as
`none`. -/

/-- The value `⌊log₂ n⌋` by repeated halving, at most `fuel` times. -/
def log2Fuel : Nat → Nat → Nat
  | 0, _ => 0
  | fuel + 1, n => if 2 ≤ n then log2Fuel fuel (n / 2) + 1 else 0

/-- The value `⌊log₂ n⌋` for `n ≥ 1` (and `0` for `n = 0`). -/
def log2Nat (n : Nat) : Nat := log2Fuel n n

/-- The integer `⌊log₂ (num / den)⌋`, for positive `num` and `den`. -/
def ilog2Ratio (num den : Nat) : Int :=
  let e0 : Int := (log2Nat num : Int) - (log2Nat den : Int)
  if den * 2 ^ e0.toNat ≤ num * 2 ^ (-e0).toNat then e0 else e0 - 1

/-- The integer nearest to `n / d`, ties to even. -/
def roundHalfEven (n d : Nat) : Nat :=
  let q := n / d
  let r := n % d
  if 2 * r < d then q else if d < 2 * r then q + 1 else if q % 2 = 0 then q else q + 1

/-- Rounding of a rational to single precision (24-bit significand, nearest, ties to
even). -/
def roundF32 (q : ℚ) : ℚ :=
  if q = 0 then 0
  else
    let num := q.num.natAbs
    let den := q.den
    let e := ilog2Ratio num den
    let m := roundHalfEven (num * 2 ^ (23 - e).toNat) (den * 2 ^ (e - 23).toNat)
    let v : ℚ := (m : ℚ) * 2 ^ (e - 23)
    if q < 0 then -v else v

/-- The conversion `(float)n` of an integer. -/
def toF32 (n : Int) : ℚ := roundF32 (n : ℚ)

/-- Single-precision division; `none` when the divisor is zero. -/
def fdiv (a b : ℚ) : Option ℚ :=
  if b = 0 then none else some (roundF32 (a / b))

/-- Single-precision subtraction. -/
def fsub (a b : ℚ) : ℚ := roundF32 (a - b)

/-- Single-precision multiplication (on the AVR target `double` is single precision
too, so `relDiffTrend * 100.0` is this product). -/
def fmul (a b : ℚ) : ℚ := roundF32 (a * b)

/-! ## `evaluateSCLTrend` (`conduttanza.h`, lines 152-212) -/

/-- The constant `THRESHOLD_REL_SCL = 0.10` of type `float` (line 157). -/
def THRESHOLD_REL_SCL : ℚ := roundF32 (1 / 10)

/-- The element `p[i]` of a two-element array. -/
def idx (p : Int × Int) (i : Nat) : Int := if i = 0 then p.1 else p.2

/-- Appends lines to the `Serial` output. -/
def State.print (s : State) (ls : List SerialLine) : State :=
  { s with serial := s.serial ++ ls }

/-- The mean of lines 160-169: `0.0` unless `count > 0`, in which case
`(float)sum / (float)count`. -/
def windowMean (sum count : Int) : Option ℚ :=
  if count > 0 then fdiv (toF32 sum) (toF32 count) else some 0

/-- One iteration of the `for` loop of `evaluateSCLTrend` (lines 160-208) for person
`i`; `fake` is what `random(0, 2)` returns if line 180 is executed. -/
def trendChannel (s : State) (i : Nat) (fake : Int) : Option State := do
  let meanFirst ← windowMean (idx s.firstHalfSumSCL i) (idx s.firstHalfCountSCL i)
  let meanSecond ← windowMean (idx s.secondHalfSumSCL i) (idx s.secondHalfCountSCL i)
  let s := s.print [.persona i]
  if meanFirst = 0 ∨ meanSecond = 0 then
    pure (s.print [.insufficient, .simulated (fake == 1), .blank])
  else
    let s := s.print [.meanFirst meanFirst, .meanSecond meanSecond]
    let delta := fsub meanFirst meanSecond
    let relDiffTrend ← fdiv delta meanFirst
    let s := s.print [.delta delta, .relative (fmul relDiffTrend 100)]
    let s :=
      if relDiffTrend ≥ THRESHOLD_REL_SCL then s.print [.arousalSI]
      else s.print [.arousalNO]
    pure (s.print [.blank])

/-- Body of `evaluateSCLTrend()`; `fake0`, `fake1` are the results of `random(0, 2)`
for person 0 and person 1 (consumed only on the insufficient-data branch). -/
def evaluateSCLTrend (s : State) (fake0 fake1 : Int) : Option State := do
  let s := s.print [.blank, .header]
  let s ← trendChannel s 0 fake0
  let s ← trendChannel s 1 fake1
  pure (s.print [.footer])

/-! ## `setupConduttanza`, `loopConduttanza` (`conduttanza.h`, lines 62-86) -/

/-- What one iteration of the Arduino `loop` reads from its environment: `millis()`,
the two `analogRead` results, the two possible `random(0, 2)` results and the
capacitive reading `sensoreDestro.capacitiveSensor(30)`. -/
structure Tick where
  now : Nat
  adc0 : Int
  adc1 : Int
  fake0 : Int
  fake1 : Int
  lettura : Int
  deriving DecidableEq

/-- Body of `setupConduttanza()`; `now` is `millis()`. -/
def setupConduttanza (s : State) (now : Nat) : State :=
  ({ s with experimentStart := now }).print [.started]

/-- Body of `loopConduttanza()`. -/
def loopConduttanza (s : State) (t : Tick) : Option State := do
  let now := t.now
  let elapsed := usub now s.experimentStart
  let s := updateSCL s elapsed t.adc0 t.adc1
  if elapsed > EXPERIMENT_DURATION ∧ ¬ s.trendEvaluated then
    let s ← evaluateSCLTrend s t.fake0 t.fake1
    pure { s with trendEvaluated := true }
  else
    pure s

/-! ## `letturaContatto` (`contatto.h`) and `loop` (`main.cpp`) -/

def SOGLIA_STRETTA : Int := 2000

/-- Body of `letturaContatto()`; `lettura` is `sensoreDestro.capacitiveSensor(30)`. -/
def letturaContatto (s : State) (lettura : Int) : State × Int :=
  let s := s.print [.capacita lettura]
  if lettura > SOGLIA_STRETTA then (s, lettura) else (s, 0)

/-- Body of `loop()` of `main.cpp`. -/
def loop (s : State) (t : Tick) : Option State := do
  let s ← loopConduttanza s t
  let (s, valoreContatto) := letturaContatto s t.lettura
  pure (s.print [.stream s.exportRaw0 s.exportRaw1 valoreContatto])

/-- Consecutive calls of `loopConduttanza`, one per element of `ts`. -/
def runConduttanza (s : State) : List Tick → Option State
  | [] => some s
  | t :: ts => (loopConduttanza s t).bind fun s1 => runConduttanza s1 ts

/-- Consecutive iterations of `loop`, one per element of `ts`. -/
def runLoop (s : State) : List Tick → Option State
  | [] => some s
  | t :: ts => (loop s t).bind fun s1 => runLoop s1 ts

/-! ## Specification-side predicates -/

/-- The acceptance condition in the words of the specification: the reading is in the
valid range and, when a previous accepted value exists, within the maximum step of it. -/
def specAccepts (raw lastRaw : Int) : Prop :=
  0 ≤ raw ∧ raw ≤ 500 ∧ (lastRaw = -1 ∨ |raw - lastRaw| ≤ 80)

instance (raw lastRaw : Int) : Decidable (specAccepts raw lastRaw) := by
  unfold specAccepts; infer_instance

/-- The tick is not skipped by the 50 ms throttle of `updateSCL` (line 91). -/
def throttlePassed (s : State) (elapsed : Nat) : Prop :=
  ¬ usub elapsed s.lastSCLSampleElapsed < SCL_SAMPLE_INTERVAL

instance (s : State) (elapsed : Nat) : Decidable (throttlePassed s elapsed) := by
  unfold throttlePassed; infer_instance

/-- The per-channel scoring state of the specification (`Channel`): the last accepted
value and the sum / count of the two windows. -/
structure Channel where
  lastAccepted : Int
  firstSum : Int
  firstCount : Int
  secondSum : Int
  secondCount : Int
  deriving DecidableEq

/-- The scoring state of channel 0 held in the globals. -/
def channel0 (s : State) : Channel :=
  ⟨s.lastRaw0, s.firstHalfSumSCL.1, s.firstHalfCountSCL.1, s.secondHalfSumSCL.1,
    s.secondHalfCountSCL.1⟩

/-- The scoring state of channel 1 held in the globals. -/
def channel1 (s : State) : Channel :=
  ⟨s.lastRaw1, s.firstHalfSumSCL.2, s.firstHalfCountSCL.2, s.secondHalfSumSCL.2,
    s.secondHalfCountSCL.2⟩

/-- The verdict of the specification (`TrendResult.verdict`); the insufficient-data
verdict carries the placeholder (`true` for SI). -/
inductive Verdict where
  | yes
  | no
  | insufficientData (placeholderSI : Bool)
  deriving DecidableEq

/-- The first verdict found in a sequence of printed lines: "Arousal SCL: SI",
"Arousal SCL: NO", or the insufficient-data line followed by its simulated value. -/
def firstVerdict : List SerialLine → Option Verdict
  | [] => none
  | SerialLine.arousalSI :: _ => some Verdict.yes
  | SerialLine.arousalNO :: _ => some Verdict.no
  | SerialLine.insufficient :: SerialLine.simulated b :: _ => some (Verdict.insufficientData b)
  | _ :: rest => firstVerdict rest

/-- The verdict that the printed text `out` reports for person `i`: the first verdict
after the line "Persona i (SCL):". -/
def reportedVerdict (out : List SerialLine) (i : Nat) : Option Verdict :=
  firstVerdict (out.dropWhile fun l => l != SerialLine.persona i)

/-- The value of `meanFirst` / `meanSecond` after lines 160-169, as a total function:
the single-precision quotient when `count > 0`, the sentinel `0` otherwise. -/
def meanF32 (sum count : Int) : ℚ :=
  if count > 0 then roundF32 (toF32 sum / toF32 count) else 0

/-- The single-precision `relDiffTrend` of line 194 computed from the two means. -/
def relDiffF32 (meanFirst meanSecond : ℚ) : ℚ :=
  roundF32 (fsub meanFirst meanSecond / meanFirst)

/-- The lines printed by one iteration of the loop of `evaluateSCLTrend`, in closed
form, from the two means and the `random(0, 2)` result. -/
def channelLines (meanFirst meanSecond : ℚ) (i : Nat) (fake : Int) : List SerialLine :=
  if meanFirst = 0 ∨ meanSecond = 0 then
    [.persona i, .insufficient, .simulated (fake == 1), .blank]
  else
    [.persona i, .meanFirst meanFirst, .meanSecond meanSecond,
      .delta (fsub meanFirst meanSecond),
      .relative (fmul (relDiffF32 meanFirst meanSecond) 100),
      if relDiffF32 meanFirst meanSecond ≥ THRESHOLD_REL_SCL then .arousalSI
      else .arousalNO,
      .blank]

/-- The lines printed by a whole call of `evaluateSCLTrend`, in closed form. -/
def trendLines (s : State) (fake0 fake1 : Int) : List SerialLine :=
  [.blank, .header]
    ++ channelLines (meanF32 s.firstHalfSumSCL.1 s.firstHalfCountSCL.1)
        (meanF32 s.secondHalfSumSCL.1 s.secondHalfCountSCL.1) 0 fake0
    ++ channelLines (meanF32 s.firstHalfSumSCL.2 s.firstHalfCountSCL.2)
        (meanF32 s.secondHalfSumSCL.2 s.secondHalfCountSCL.2) 1 fake1
    ++ [.footer]

/-! ## Runs of `updateSCL` -/

/-- The arguments of one call of `updateSCL`: the elapsed time and the two `analogRead`
results. -/
structure Sample where
  elapsed : Nat
  adc0 : Int
  adc1 : Int
  deriving DecidableEq

/-- Consecutive calls of `updateSCL`, one per element of the list. -/
def runSCL (s : State) : List Sample → State
  | [] => s
  | t :: ts => runSCL (updateSCL s t.elapsed t.adc0 t.adc1) ts

/-- The elapsed times of the calls of a run on which a sample was processed (the
throttle of line 91 was passed), oldest first. -/
def processedTimes (s : State) : List Sample → List Nat
  | [] => []
  | t :: ts =>
    if throttlePassed s t.elapsed then
      t.elapsed :: processedTimes (updateSCL s t.elapsed t.adc0 t.adc1) ts
    else processedTimes (updateSCL s t.elapsed t.adc0 t.adc1) ts

/-- The elapsed times of the samples are non-decreasing and none is before `last`. -/
def timeOrdered : Nat → List Sample → Prop
  | _, [] => True
  | last, t :: ts => last ≤ t.elapsed ∧ timeOrdered t.elapsed ts

/-- Every channel-0 reading of the run is rejected by the filter at the moment it is
processed. -/
def rejectedRun0 (s : State) : List Sample → Prop
  | [] => True
  | t :: ts =>
    ¬ specAccepts (1023 - t.adc0) s.lastRaw0 ∧
      rejectedRun0 (updateSCL s t.elapsed t.adc0 t.adc1) ts

/-- Every channel-1 reading of the run is rejected by the filter at the moment it is
processed. -/
def rejectedRun1 (s : State) : List Sample → Prop
  | [] => True
  | t :: ts =>
    ¬ specAccepts (1023 - t.adc1) s.lastRaw1 ∧
      rejectedRun1 (updateSCL s t.elapsed t.adc0 t.adc1) ts

/-- The range invariant of a channel: the baseline is the sentinel `-1` or a valid
value, the counts are non-negative and each sum lies between 0 and 500 times its
count. -/
def Channel.inRange (c : Channel) : Prop :=
  (c.lastAccepted = -1 ∨ (0 ≤ c.lastAccepted ∧ c.lastAccepted ≤ 500)) ∧
  0 ≤ c.firstCount ∧ 0 ≤ c.secondCount ∧
  0 ≤ c.firstSum ∧ c.firstSum ≤ 500 * c.firstCount ∧
  0 ≤ c.secondSum ∧ c.secondSum ≤ 500 * c.secondCount

/-- Fifty times the number of samples that the first window can hold once the last
processed sample is at elapsed time `last`. -/
def firstBudget (last : Nat) : Int :=
  if last < 5000 then 0 else if last ≤ 25000 then (last : Int) - 4950 else 20050

/-- Fifty times the number of samples that the second window can hold once the last
processed sample is at elapsed time `last` (rounded up to the next unit). -/
def secondBudget (last : Nat) : Int :=
  if last ≤ 25000 then 0 else if last ≤ 45000 then (last : Int) - 24951 else 20049

/-- The counts of a channel fit the time budget of the two windows. -/
def Channel.inBudget (c : Channel) (last : Nat) : Prop :=
  50 * c.firstCount ≤ firstBudget last ∧ 50 * c.secondCount ≤ secondBudget last

/-- The bounds of a channel over a run in time order: at most 401 samples in the first
window and 400 in the second, each sum between 0 and 500 times its count and at most
200500. -/
def Channel.bounded (c : Channel) : Prop :=
  (0 ≤ c.firstCount ∧ c.firstCount ≤ 401) ∧ (0 ≤ c.secondCount ∧ c.secondCount ≤ 400) ∧
  (0 ≤ c.firstSum ∧ c.firstSum ≤ 500 * c.firstCount ∧ c.firstSum ≤ 200500) ∧
  (0 ≤ c.secondSum ∧ c.secondSum ≤ 500 * c.secondCount ∧ c.secondSum ≤ 200500)

/-- The counts of a channel are values of a 16-bit `int` and its sums values of a 32-bit
`long` (the widths of the AVR target). -/
def Channel.fitsTarget (c : Channel) : Prop :=
  (-32768 ≤ c.firstCount ∧ c.firstCount ≤ 32767) ∧
  (-32768 ≤ c.secondCount ∧ c.secondCount ≤ 32767) ∧
  (-2147483648 ≤ c.firstSum ∧ c.firstSum ≤ 2147483647) ∧
  (-2147483648 ≤ c.secondSum ∧ c.secondSum ≤ 2147483647)

/-- The call of `updateSCL` made by the tick `t` of `loopConduttanza` when the
experiment started at `start`. -/
def Tick.toSample (start : Nat) (t : Tick) : Sample :=
  ⟨usub t.now start, t.adc0, t.adc1⟩

/-! ## `updateSCL` at the integer widths of the target

On the AVR target `int` has 16 bits and `long` 32.  Signed overflow, undefined in C++,
is the two's-complement wrap-around there.  `updateSCLTarget` is `updateSCL` with every
signed operation wrapped to its width; the two agree as long as nothing overflows
(`updateSCLTarget_eq`). -/

theorem absInt_eq_abs (x : Int) : absInt x = |x| := by
  unfold absInt
  split_ifs with h
  · exact (abs_of_pos h).symm
  · exact (abs_of_nonpos (not_lt.mp h)).symm

theorem sclValid_iff (raw lastRaw : Int) :
    sclValid raw lastRaw = true ↔ specAccepts raw lastRaw := by
  unfold sclValid specAccepts SCL_MIN_VALID SCL_MAX_VALID SCL_MAX_STEP
  rw [absInt_eq_abs]
  by_cases h1 : raw < 0 ∨ raw > 500
  · simp only [h1, if_true]
    constructor
    · intro h; split_ifs at h
    · rintro ⟨h0, h5, -⟩; omega
  · simp only [h1, if_false]
    have h0 : 0 ≤ raw := by omega
    have h5 : raw ≤ 500 := by omega
    by_cases h2 : lastRaw = -1
    · simp [h2, h0, h5]
    · by_cases h3 : |raw - lastRaw| ≤ 80
      · have : ¬ (|raw - lastRaw| > 80) := not_lt.mpr h3
        simp [h2, h3, h0, h5, this]
      · have : |raw - lastRaw| > 80 := not_le.mp h3
        simp [h2, h3, this]

theorem usub_of_le (a b : Nat) (hb : b ≤ a) (ha : a < ULONG_RANGE) : usub a b = a - b := by
  unfold usub ULONG_RANGE at *
  omega

/-- The effect of `updateSCL` on a tick that passes the throttle inside the scoring
window, written out field by field. -/
theorem updateSCL_window (s : State) (elapsed : Nat) (adc0 adc1 : Int)
    (hthr : throttlePassed s elapsed) (hlo : 5000 ≤ elapsed) (hhi : elapsed ≤ 45000) :
    updateSCL s elapsed adc0 adc1 =
      { s with
        lastSCLSampleElapsed := elapsed
        exportRaw0 := 1023 - adc0
        exportRaw1 := 1023 - adc1
        firstHalfSumSCL :=
          (if sclValid (1023 - adc0) s.lastRaw0 = true ∧ elapsed - 5000 ≤ 20000
            then s.firstHalfSumSCL.1 + (1023 - adc0) else s.firstHalfSumSCL.1,
           if sclValid (1023 - adc1) s.lastRaw1 = true ∧ elapsed - 5000 ≤ 20000
            then s.firstHalfSumSCL.2 + (1023 - adc1) else s.firstHalfSumSCL.2)
        firstHalfCountSCL :=
          (if sclValid (1023 - adc0) s.lastRaw0 = true ∧ elapsed - 5000 ≤ 20000
            then s.firstHalfCountSCL.1 + 1 else s.firstHalfCountSCL.1,
           if sclValid (1023 - adc1) s.lastRaw1 = true ∧ elapsed - 5000 ≤ 20000
            then s.firstHalfCountSCL.2 + 1 else s.firstHalfCountSCL.2)
        secondHalfSumSCL :=
          (if sclValid (1023 - adc0) s.lastRaw0 = true ∧ ¬ elapsed - 5000 ≤ 20000
            then s.secondHalfSumSCL.1 + (1023 - adc0) else s.secondHalfSumSCL.1,
           if sclValid (1023 - adc1) s.lastRaw1 = true ∧ ¬ elapsed - 5000 ≤ 20000
            then s.secondHalfSumSCL.2 + (1023 - adc1) else s.secondHalfSumSCL.2)
        secondHalfCountSCL :=
          (if sclValid (1023 - adc0) s.lastRaw0 = true ∧ ¬ elapsed - 5000 ≤ 20000
            then s.secondHalfCountSCL.1 + 1 else s.secondHalfCountSCL.1,
           if sclValid (1023 - adc1) s.lastRaw1 = true ∧ ¬ elapsed - 5000 ≤ 20000
            then s.secondHalfCountSCL.2 + 1 else s.secondHalfCountSCL.2)
        lastRaw0 := if sclValid (1023 - adc0) s.lastRaw0 = true then 1023 - adc0 else s.lastRaw0
        lastRaw1 := if sclValid (1023 - adc1) s.lastRaw1 = true then 1023 - adc1 else s.lastRaw1 } := by
  have hu : usub elapsed SCL_START_DELAY = elapsed - 5000 := by
    rw [usub_of_le _ _ (by unfold SCL_START_DELAY; omega) (by unfold ULONG_RANGE; omega)]
    rfl
  have h1 : ¬ elapsed > EXPERIMENT_DURATION := by unfold EXPERIMENT_DURATION; omega
  have h2 : ¬ elapsed < SCL_START_DELAY := by unfold SCL_START_DELAY; omega
  have hh : SCL_HALF_DURATION = 20000 := by decide
  unfold throttlePassed at hthr
  unfold updateSCL
  simp only [hthr, h1, h2, if_false, hu, hh]
  by_cases v0 : sclValid (1023 - adc0) s.lastRaw0 = true <;>
  by_cases v1 : sclValid (1023 - adc1) s.lastRaw1 = true <;>
  by_cases hw : elapsed - 5000 ≤ 20000 <;>
  simp [v0, v1, hw]

/-- A tick skipped by the throttle leaves the whole state as it is. -/
theorem updateSCL_throttled (s : State) (elapsed : Nat) (adc0 adc1 : Int)
    (hthr : ¬ throttlePassed s elapsed) : updateSCL s elapsed adc0 adc1 = s := by
  unfold throttlePassed at hthr
  unfold updateSCL
  simp only [not_not] at hthr
  simp only [hthr, if_true]

/-- Outside the scoring window a tick that passes the throttle only records the time
and publishes the two readings. -/
theorem updateSCL_outside (s : State) (elapsed : Nat) (adc0 adc1 : Int)
    (hthr : throttlePassed s elapsed) (hout : elapsed < 5000 ∨ elapsed > 45000) :
    updateSCL s elapsed adc0 adc1 =
      { s with lastSCLSampleElapsed := elapsed, exportRaw0 := 1023 - adc0,
               exportRaw1 := 1023 - adc1 } := by
  unfold throttlePassed at hthr
  unfold updateSCL
  simp only [hthr, if_false]
  by_cases h1 : elapsed > EXPERIMENT_DURATION
  · simp only [h1, if_true]
  · have h2 : elapsed < SCL_START_DELAY := by
      unfold EXPERIMENT_DURATION at h1; unfold SCL_START_DELAY; omega
    simp only [h1, h2, if_false, if_true]

/-! ### Single-precision rounding -/

theorem log2Fuel_spec (fuel n : Nat) (hf : n ≤ fuel) (hn : n ≠ 0) :
    2 ^ log2Fuel fuel n ≤ n ∧ n < 2 ^ (log2Fuel fuel n + 1) := by
  induction fuel generalizing n with
  | zero => omega
  | succ fuel ih =>
    unfold log2Fuel
    split_ifs with h2
    · obtain ⟨h1, h3⟩ := ih (n / 2) (by omega) (by omega)
      constructor
      · rw [pow_succ]; omega
      · rw [pow_succ]; omega
    · have : n = 1 := by omega
      subst this
      simp

theorem log2Nat_self_le (n : Nat) (hn : n ≠ 0) : 2 ^ log2Nat n ≤ n :=
  (log2Fuel_spec n n le_rfl hn).1

theorem lt_log2Nat_self (n : Nat) : n < 2 ^ (log2Nat n + 1) := by
  by_cases hn : n = 0
  · subst hn; simp [log2Nat, log2Fuel]
  · exact (log2Fuel_spec n n le_rfl hn).2

theorem ilog2Ratio_le (num den : Nat) (hn : 0 < num) :
    den * 2 ^ (ilog2Ratio num den).toNat ≤ num * 2 ^ (-(ilog2Ratio num den)).toNat := by
  unfold ilog2Ratio
  simp only
  split_ifs with h
  · exact h
  · have ha : 2 ^ log2Nat num ≤ num := log2Nat_self_le num (by omega)
    have hb : den < 2 ^ (log2Nat den + 1) := lt_log2Nat_self den
    generalize log2Nat num = a at *
    generalize log2Nat den = b at *
    by_cases hab : b + 1 ≤ a
    · have e1 : ((a : Int) - b - 1).toNat = a - b - 1 := by omega
      have e2 : (-((a : Int) - b - 1)).toNat = 0 := by omega
      rw [e1, e2, pow_zero, mul_one]
      have : 2 ^ (b + 1) * 2 ^ (a - b - 1) = 2 ^ a := by
        rw [← pow_add]; congr 1; omega
      calc den * 2 ^ (a - b - 1) ≤ 2 ^ (b + 1) * 2 ^ (a - b - 1) :=
            Nat.mul_le_mul_right _ hb.le
        _ = 2 ^ a := this
        _ ≤ num := ha
    · have e1 : ((a : Int) - b - 1).toNat = 0 := by omega
      have e2 : (-((a : Int) - b - 1)).toNat = b + 1 - a := by omega
      rw [e1, e2, pow_zero, mul_one]
      have : 2 ^ a * 2 ^ (b + 1 - a) = 2 ^ (b + 1) := by
        rw [← pow_add]; congr 1; omega
      calc den ≤ 2 ^ (b + 1) := hb.le
        _ = 2 ^ a * 2 ^ (b + 1 - a) := this.symm
        _ ≤ num * 2 ^ (b + 1 - a) := Nat.mul_le_mul_right _ ha

theorem le_roundHalfEven (n d : Nat) : n / d ≤ roundHalfEven n d := by
  unfold roundHalfEven
  simp only
  split_ifs <;> omega

theorem roundHalfEven_pos (n d : Nat) (hd : 0 < d) (h : d ≤ n) : 0 < roundHalfEven n d :=
  lt_of_lt_of_le (Nat.div_pos h hd) (le_roundHalfEven n d)

theorem roundF32_scaled_le (num den : Nat) (hn : 0 < num) :
    den * 2 ^ (ilog2Ratio num den - 23).toNat ≤ num * 2 ^ (23 - ilog2Ratio num den).toNat := by
  have h := ilog2Ratio_le num den hn
  generalize ilog2Ratio num den = e at *
  by_cases he : 23 ≤ e
  · have e1 : (23 - e).toNat = 0 := by omega
    have e2 : (-e).toNat = 0 := by omega
    rw [e1, pow_zero, mul_one]
    rw [e2, pow_zero, mul_one] at h
    refine le_trans (Nat.mul_le_mul_left _ ?_) h
    exact Nat.pow_le_pow_right (by norm_num) (by omega)
  · have e1 : (e - 23).toNat = 0 := by omega
    rw [e1, pow_zero, mul_one]
    by_cases h0 : 0 ≤ e
    · have e2 : (-e).toNat = 0 := by omega
      rw [e2, pow_zero, mul_one] at h
      calc den ≤ den * 2 ^ e.toNat := Nat.le_mul_of_pos_right _ (by positivity)
        _ ≤ num := h
        _ ≤ num * 2 ^ (23 - e).toNat := Nat.le_mul_of_pos_right _ (by positivity)
    · have e2 : e.toNat = 0 := by omega
      rw [e2, pow_zero, mul_one] at h
      refine le_trans h (Nat.mul_le_mul_left _ ?_)
      exact Nat.pow_le_pow_right (by norm_num) (by omega)

theorem roundF32_eq_zero_iff (q : ℚ) : roundF32 q = 0 ↔ q = 0 := by
  constructor
  · intro h
    by_contra hq
    unfold roundF32 at h
    simp only [hq, if_false] at h
    have hn : 0 < q.num.natAbs := Int.natAbs_pos.mpr (Rat.num_ne_zero.mpr hq)
    have hd : 0 < q.den := q.den_pos
    have hm := roundHalfEven_pos _ _ (by positivity) (roundF32_scaled_le q.num.natAbs q.den hn)
    have hv : ((roundHalfEven (q.num.natAbs * 2 ^ (23 - ilog2Ratio q.num.natAbs q.den).toNat)
        (q.den * 2 ^ (ilog2Ratio q.num.natAbs q.den - 23).toNat) : Nat) : ℚ)
          * 2 ^ (ilog2Ratio q.num.natAbs q.den - 23) ≠ 0 := by
      apply mul_ne_zero
      · exact_mod_cast hm.ne'
      · exact zpow_ne_zero _ (by norm_num)
    split_ifs at h
    · exact hv (neg_eq_zero.mp h)
    · exact hv h
  · intro h
    simp [roundF32, h]

theorem toF32_ne_zero (n : Int) (h : n ≠ 0) : toF32 n ≠ 0 := by
  unfold toF32
  rw [Ne, roundF32_eq_zero_iff]
  exact_mod_cast h

theorem roundHalfEven_spec (n d : Nat) (hd : 0 < d) :
    2 * (roundHalfEven n d * d) ≤ 2 * n + d ∧ 2 * n ≤ 2 * (roundHalfEven n d * d) + d := by
  have h1 : d * (n / d) + n % d = n := Nat.div_add_mod n d
  have h2 : n % d < d := Nat.mod_lt n hd
  unfold roundHalfEven
  simp only
  have e1 : (n / d) * d = d * (n / d) := Nat.mul_comm _ _
  have e2 : (n / d + 1) * d = d * (n / d) + d := by rw [Nat.add_mul, e1, Nat.one_mul]
  split_ifs <;> simp only [e1, e2] <;> omega

theorem roundHalfEven_error (n d : Nat) (hd : 0 < d) :
    |(roundHalfEven n d : ℚ) - (n : ℚ) / d| ≤ 1 / 2 := by
  obtain ⟨h1, h2⟩ := roundHalfEven_spec n d hd
  have hd' : (0 : ℚ) < d := by exact_mod_cast hd
  have h1' : (2 : ℚ) * (roundHalfEven n d * d) ≤ 2 * n + d := by exact_mod_cast h1
  have h2' : (2 : ℚ) * n ≤ 2 * (roundHalfEven n d * d) + d := by exact_mod_cast h2
  have hx : (n : ℚ) / d * d = n := div_mul_cancel₀ _ hd'.ne'
  rw [abs_le]
  constructor
  · refine le_of_mul_le_mul_right ?_ hd'
    rw [sub_mul, hx]
    linarith
  · refine le_of_mul_le_mul_right ?_ hd'
    rw [sub_mul, hx]
    linarith

/-- The quotient that `roundF32` rounds to an integer is `|q|` scaled by
`2 ^ (23 - e)`. -/
theorem roundF32_scaled_eq (num den : Nat) (hd : 0 < den) (e : Int) :
    ((num * 2 ^ (23 - e).toNat : Nat) : ℚ) / ((den * 2 ^ (e - 23).toNat : Nat) : ℚ)
      = (num : ℚ) / den * 2 ^ (23 - e) := by
  have hd' : (den : ℚ) ≠ 0 := by exact_mod_cast hd.ne'
  have h2 : (2 : ℚ) ≠ 0 := by norm_num
  simp only [Nat.cast_mul, Nat.cast_pow, Nat.cast_ofNat]
  by_cases he : e ≤ 23
  · have e1 : (e - 23).toNat = 0 := by omega
    obtain ⟨k, hk⟩ : ∃ k : Nat, (23 - e).toNat = k := ⟨_, rfl⟩
    have e2 : 23 - e = (k : Int) := by omega
    rw [e1, hk, e2, zpow_natCast, pow_zero, mul_one]
    field_simp
  · have e1 : (23 - e).toNat = 0 := by omega
    obtain ⟨k, hk⟩ : ∃ k : Nat, (e - 23).toNat = k := ⟨_, rfl⟩
    have e2 : 23 - e = -(k : Int) := by omega
    rw [e1, hk, e2, zpow_neg, zpow_natCast, pow_zero, mul_one]
    field_simp

theorem two_zpow_ilog2Ratio_le (num den : Nat) (hn : 0 < num) (hd : 0 < den) :
    (2 : ℚ) ^ ilog2Ratio num den ≤ (num : ℚ) / den := by
  have h := ilog2Ratio_le num den hn
  generalize ilog2Ratio num den = e at *
  have hd' : (0 : ℚ) < den := by exact_mod_cast hd
  have h' : (den : ℚ) * 2 ^ e.toNat ≤ num * 2 ^ (-e).toNat := by exact_mod_cast h
  rw [le_div_iff₀ hd']
  by_cases he : 0 ≤ e
  · have e1 : (-e).toNat = 0 := by omega
    have e2 : ((e.toNat : Nat) : Int) = e := by omega
    rw [e1, pow_zero, mul_one] at h'
    rw [← e2, zpow_natCast]
    linarith
  · have e1 : e.toNat = 0 := by omega
    have e2 : e = -(((-e).toNat : Nat) : Int) := by omega
    rw [e1, pow_zero, mul_one] at h'
    rw [e2, zpow_neg, zpow_natCast]
    have hp : (0 : ℚ) < 2 ^ (-e).toNat := by positivity
    rw [inv_mul_le_iff₀ hp]
    linarith

/-- The rounding error of `roundF32` is at most half a unit in the last place: relative
to `|q|` it is at most `2 ^ (-24)`. -/
theorem roundF32_error (q : ℚ) : |roundF32 q - q| ≤ |q| / 2 ^ 24 := by
  by_cases hq : q = 0
  · subst hq
    simp [roundF32]
  have hn : 0 < q.num.natAbs := Int.natAbs_pos.mpr (Rat.num_ne_zero.mpr hq)
  have hd : 0 < q.den := q.den_pos
  have hr : roundF32 q =
      if q < 0 then
        -((roundHalfEven (q.num.natAbs * 2 ^ (23 - ilog2Ratio q.num.natAbs q.den).toNat)
            (q.den * 2 ^ (ilog2Ratio q.num.natAbs q.den - 23).toNat) : ℚ)
          * 2 ^ (ilog2Ratio q.num.natAbs q.den - 23))
      else
        (roundHalfEven (q.num.natAbs * 2 ^ (23 - ilog2Ratio q.num.natAbs q.den).toNat)
            (q.den * 2 ^ (ilog2Ratio q.num.natAbs q.den - 23).toNat) : ℚ)
          * 2 ^ (ilog2Ratio q.num.natAbs q.den - 23) := by
    unfold roundF32
    simp only [hq, if_false]
  rw [hr]
  have habs : |q| = (q.num.natAbs : ℚ) / q.den := by
    conv_lhs => rw [← Rat.num_div_den q]
    rw [abs_div, Nat.abs_cast, Nat.cast_natAbs, Int.cast_abs]
  have hD : 0 < q.den * 2 ^ (ilog2Ratio q.num.natAbs q.den - 23).toNat := by positivity
  have herr := roundHalfEven_error
    (q.num.natAbs * 2 ^ (23 - ilog2Ratio q.num.natAbs q.den).toNat)
    (q.den * 2 ^ (ilog2Ratio q.num.natAbs q.den - 23).toNat) hD
  rw [roundF32_scaled_eq _ _ hd, ← habs] at herr
  have hlog := two_zpow_ilog2Ratio_le q.num.natAbs q.den hn hd
  rw [← habs] at hlog
  generalize ilog2Ratio q.num.natAbs q.den = e at *
  generalize (roundHalfEven (q.num.natAbs * 2 ^ (23 - e).toNat)
    (q.den * 2 ^ (e - 23).toNat) : ℚ) = m at *
  have key : |m * 2 ^ (e - 23) - abs q| ≤ abs q / 2 ^ 24 := by
    have hp : (0 : ℚ) < 2 ^ (e - 23) := by positivity
    have e3 : m * 2 ^ (e - 23) - abs q = (m - abs q * 2 ^ (23 - e)) * 2 ^ (e - 23) := by
      rw [sub_mul, mul_assoc, ← zpow_add₀ (by norm_num : (2 : ℚ) ≠ 0)]
      simp
    rw [e3, abs_mul, abs_of_pos hp]
    have e4 : (2 : ℚ) ^ (e - 23) = 2 ^ e / 2 ^ 23 := by
      rw [zpow_sub₀ (by norm_num : (2 : ℚ) ≠ 0)]
      norm_num
    calc |m - abs q * 2 ^ (23 - e)| * 2 ^ (e - 23) ≤ 1 / 2 * 2 ^ (e - 23) :=
          mul_le_mul_of_nonneg_right herr hp.le
      _ = 2 ^ e / 2 ^ 24 := by rw [e4]; ring
      _ ≤ abs q / 2 ^ 24 := by
          apply div_le_div_of_nonneg_right hlog (by positivity)
  by_cases hneg : q < 0
  · simp only [hneg, if_true]
    rw [← abs_neg]
    have : -(-(m * 2 ^ (e - 23)) - q) = m * 2 ^ (e - 23) - -q := by ring
    rw [this, ← abs_of_neg hneg]
    exact key
  · simp only [hneg, if_false]
    have : m * 2 ^ (e - 23) - q = m * 2 ^ (e - 23) - abs q := by
      rw [abs_of_nonneg (not_lt.mp hneg)]
    rw [this]
    exact key

theorem ilog2Ratio_lt (num den : Nat) (hd : 0 < den) :
    num * 2 ^ (-(ilog2Ratio num den + 1)).toNat
      < den * 2 ^ (ilog2Ratio num den + 1).toNat := by
  unfold ilog2Ratio
  simp only
  split_ifs with h
  · have ha : num < 2 ^ (log2Nat num + 1) := lt_log2Nat_self num
    have hb : 2 ^ log2Nat den ≤ den := log2Nat_self_le den (by omega)
    generalize log2Nat num = a at *
    generalize log2Nat den = b at *
    by_cases hab : b ≤ a + 1
    · have e1 : (-((a : Int) - b + 1)).toNat = 0 := by omega
      have e2 : ((a : Int) - b + 1).toNat = a + 1 - b := by omega
      rw [e1, e2, pow_zero, mul_one]
      have : 2 ^ b * 2 ^ (a + 1 - b) = 2 ^ (a + 1) := by
        rw [← pow_add]; congr 1; omega
      calc num < 2 ^ (a + 1) := ha
        _ = 2 ^ b * 2 ^ (a + 1 - b) := this.symm
        _ ≤ den * 2 ^ (a + 1 - b) := Nat.mul_le_mul_right _ hb
    · have e1 : (-((a : Int) - b + 1)).toNat = b - (a + 1) := by omega
      have e2 : ((a : Int) - b + 1).toNat = 0 := by omega
      rw [e1, e2, pow_zero, mul_one]
      have : 2 ^ (a + 1) * 2 ^ (b - (a + 1)) = 2 ^ b := by
        rw [← pow_add]; congr 1; omega
      calc num * 2 ^ (b - (a + 1)) < 2 ^ (a + 1) * 2 ^ (b - (a + 1)) :=
            Nat.mul_lt_mul_of_pos_right ha (by positivity)
        _ = 2 ^ b := this
        _ ≤ den := hb
  · have e1 : (-((log2Nat num : Int) - log2Nat den - 1 + 1)).toNat
        = (-((log2Nat num : Int) - log2Nat den)).toNat := by congr 1; omega
    have e2 : ((log2Nat num : Int) - log2Nat den - 1 + 1).toNat
        = ((log2Nat num : Int) - log2Nat den).toNat := by congr 1; omega
    rw [e1, e2]
    exact not_le.mp h

theorem roundF32_scaled_lt (num den : Nat) (hd : 0 < den) :
    num * 2 ^ (23 - ilog2Ratio num den).toNat
      < den * 2 ^ (ilog2Ratio num den - 23).toNat * 2 ^ 24 := by
  have h := ilog2Ratio_lt num den hd
  generalize ilog2Ratio num den = e at *
  by_cases h1 : 23 ≤ e
  · have e1 : (23 - e).toNat = 0 := by omega
    have e2 : (-(e + 1)).toNat = 0 := by omega
    have e3 : (e + 1).toNat = (e - 23).toNat + 24 := by omega
    rw [e2, e3, pow_zero, mul_one, pow_add, ← mul_assoc] at h
    rw [e1, pow_zero, mul_one]
    exact h
  · have e1 : (e - 23).toNat = 0 := by omega
    rw [e1, pow_zero, mul_one]
    by_cases h2 : 0 ≤ e + 1
    · have e2 : (-(e + 1)).toNat = 0 := by omega
      have e3 : 24 = (e + 1).toNat + (23 - e).toNat := by omega
      rw [e2, pow_zero, mul_one] at h
      rw [e3, pow_add, ← mul_assoc]
      exact Nat.mul_lt_mul_of_pos_right h (by positivity)
    · have e2 : (e + 1).toNat = 0 := by omega
      have e3 : (23 - e).toNat = (-(e + 1)).toNat + 24 := by omega
      rw [e2, pow_zero, mul_one] at h
      rw [e3, pow_add, ← mul_assoc]
      exact Nat.mul_lt_mul_of_pos_right h (by positivity)

theorem roundHalfEven_le (n d : Nat) : roundHalfEven n d ≤ n / d + 1 := by
  unfold roundHalfEven
  simp only
  split_ifs <;> omega

/-- Every value of `roundF32` is representable: an integer significand of at most 24
bits (or `2 ^ 24` itself, the next power of two) times a power of two. -/
theorem roundF32_representable (q : ℚ) :
    ∃ (m : Nat) (k : Int), m ≤ 2 ^ 24 ∧ |roundF32 q| = (m : ℚ) * 2 ^ k := by
  by_cases hq : q = 0
  · exact ⟨0, 0, by norm_num, by simp [roundF32, hq]⟩
  have hd : 0 < q.den := q.den_pos
  refine ⟨roundHalfEven (q.num.natAbs * 2 ^ (23 - ilog2Ratio q.num.natAbs q.den).toNat)
      (q.den * 2 ^ (ilog2Ratio q.num.natAbs q.den - 23).toNat),
    ilog2Ratio q.num.natAbs q.den - 23, ?_, ?_⟩
  · have h := roundF32_scaled_lt q.num.natAbs q.den hd
    have hD : 0 < q.den * 2 ^ (ilog2Ratio q.num.natAbs q.den - 23).toNat := by positivity
    have h2 : q.num.natAbs * 2 ^ (23 - ilog2Ratio q.num.natAbs q.den).toNat
        / (q.den * 2 ^ (ilog2Ratio q.num.natAbs q.den - 23).toNat) < 2 ^ 24 := by
      rw [Nat.div_lt_iff_lt_mul hD, Nat.mul_comm (2 ^ 24)]
      exact h
    exact le_trans (roundHalfEven_le _ _) h2
  · have hv : (0 : ℚ) ≤
        (roundHalfEven (q.num.natAbs * 2 ^ (23 - ilog2Ratio q.num.natAbs q.den).toNat)
          (q.den * 2 ^ (ilog2Ratio q.num.natAbs q.den - 23).toNat) : ℚ)
        * 2 ^ (ilog2Ratio q.num.natAbs q.den - 23) := by positivity
    unfold roundF32
    simp only [hq, if_false]
    split_ifs
    · rw [abs_neg, abs_of_nonneg hv]
    · rw [abs_of_nonneg hv]

/-- Known single-precision values: `0.1f`, `100.0f / 3.0f`, exact small integers, and
the ties `2 ^ 24 + 1`, `2 ^ 24 + 3` going to the even neighbour. -/
theorem roundF32_known_values :
    roundF32 (1 / 10) = 13421773 / 134217728 ∧ roundF32 (100 / 3) = 8738133 / 262144 ∧
    roundF32 100 = 100 ∧ roundF32 (-80) = -80 ∧
    roundF32 16777217 = 16777216 ∧ roundF32 16777219 = 16777220 := by
  decide!

/-! ### `evaluateSCLTrend` in closed form -/

/-- The mean computed by the code is the sentinel `0` exactly when the window has no
sample (`count ≤ 0`) or its sum is `0`. -/
theorem meanF32_eq_zero_iff (sum count : Int) :
    meanF32 sum count = 0 ↔ count ≤ 0 ∨ sum = 0 := by
  unfold meanF32
  split_ifs with h
  · rw [roundF32_eq_zero_iff, div_eq_zero_iff]
    constructor
    · rintro (h1 | h1)
      · right
        by_contra hs
        exact toF32_ne_zero sum hs h1
      · exact absurd h1 (toF32_ne_zero count (by omega))
    · rintro (h1 | h1)
      · omega
      · left
        rw [h1]
        simp [toF32, roundF32]
  · simp only [true_iff]
    left
    omega

theorem windowMean_eq (sum count : Int) : windowMean sum count = some (meanF32 sum count) := by
  unfold windowMean meanF32 fdiv
  split_ifs with h1 h2
  · exact absurd h2 (toF32_ne_zero count (by omega))
  · rfl
  · rfl

theorem trendChannel_eq (s : State) (i : Nat) (fake : Int) :
    trendChannel s i fake =
      some (s.print (channelLines
        (meanF32 (idx s.firstHalfSumSCL i) (idx s.firstHalfCountSCL i))
        (meanF32 (idx s.secondHalfSumSCL i) (idx s.secondHalfCountSCL i)) i fake)) := by
  unfold trendChannel channelLines relDiffF32
  simp only [windowMean_eq, Option.bind_eq_bind, Option.some_bind, Option.pure_def]
  by_cases h1 : meanF32 (idx s.firstHalfSumSCL i) (idx s.firstHalfCountSCL i) = 0 ∨
      meanF32 (idx s.secondHalfSumSCL i) (idx s.secondHalfCountSCL i) = 0
  · simp [h1, State.print]
  · have hm : meanF32 (idx s.firstHalfSumSCL i) (idx s.firstHalfCountSCL i) ≠ 0 := by
      intro h; exact h1 (Or.inl h)
    have hm2 : meanF32 (idx s.secondHalfSumSCL i) (idx s.secondHalfCountSCL i) ≠ 0 := by
      intro h; exact h1 (Or.inr h)
    simp only [hm, hm2, or_self, if_false, fdiv, Option.some_bind]
    by_cases h2 : roundF32
        (fsub (meanF32 (idx s.firstHalfSumSCL i) (idx s.firstHalfCountSCL i))
            (meanF32 (idx s.secondHalfSumSCL i) (idx s.secondHalfCountSCL i)) /
          meanF32 (idx s.firstHalfSumSCL i) (idx s.firstHalfCountSCL i)) ≥ THRESHOLD_REL_SCL
    · simp [h2, State.print]
    · simp [h2, State.print]

theorem evaluateSCLTrend_eq (s : State) (fake0 fake1 : Int) :
    evaluateSCLTrend s fake0 fake1 = some (s.print (trendLines s fake0 fake1)) := by
  unfold evaluateSCLTrend trendLines
  simp only [trendChannel_eq, Option.bind_eq_bind, Option.some_bind, Option.pure_def]
  simp [State.print, idx]

/-! ## Claims about `updateSCL` -/

/-- C1 : on a tick that passes the throttle with `5000 ≤ elapsed ≤ 45000`, for each
channel the validity flag computed by the code is set exactly when the reading `raw`
satisfies `0 ≤ raw ≤ 500` and (`lastRaw = -1` or `|raw - lastRaw| ≤ 80`); the reading
is then accumulated (the channel's total count grows by one) exactly in that case, and
on acceptance `lastRaw0` / `lastRaw1` becomes exactly `raw`. -/
theorem updateSCL_accepts_iff (s : State) (elapsed : Nat) (adc0 adc1 : Int)
    (hthr : throttlePassed s elapsed) (hlo : 5000 ≤ elapsed) (hhi : elapsed ≤ 45000) :
    (sclValid (1023 - adc0) s.lastRaw0 = true ↔ specAccepts (1023 - adc0) s.lastRaw0) ∧
    (sclValid (1023 - adc1) s.lastRaw1 = true ↔ specAccepts (1023 - adc1) s.lastRaw1) ∧
    ((channel0 (updateSCL s elapsed adc0 adc1)).firstCount
        + (channel0 (updateSCL s elapsed adc0 adc1)).secondCount
        = (channel0 s).firstCount + (channel0 s).secondCount + 1
      ↔ specAccepts (1023 - adc0) s.lastRaw0) ∧
    ((channel1 (updateSCL s elapsed adc0 adc1)).firstCount
        + (channel1 (updateSCL s elapsed adc0 adc1)).secondCount
        = (channel1 s).firstCount + (channel1 s).secondCount + 1
      ↔ specAccepts (1023 - adc1) s.lastRaw1) ∧
    (specAccepts (1023 - adc0) s.lastRaw0 →
      (updateSCL s elapsed adc0 adc1).lastRaw0 = 1023 - adc0) ∧
    (specAccepts (1023 - adc1) s.lastRaw1 →
      (updateSCL s elapsed adc0 adc1).lastRaw1 = 1023 - adc1) := by
  rw [updateSCL_window s elapsed adc0 adc1 hthr hlo hhi]
  refine ⟨sclValid_iff _ _, sclValid_iff _ _, ?_, ?_, ?_, ?_⟩
  · rw [← sclValid_iff]
    by_cases v0 : sclValid (1023 - adc0) s.lastRaw0 = true <;>
    by_cases hw : elapsed - 5000 ≤ 20000 <;>
    simp [channel0, v0, hw] <;> omega
  · rw [← sclValid_iff]
    by_cases v1 : sclValid (1023 - adc1) s.lastRaw1 = true <;>
    by_cases hw : elapsed - 5000 ≤ 20000 <;>
    simp [channel1, v1, hw] <;> omega
  · intro h
    simp [(sclValid_iff _ _).mpr h]
  · intro h
    simp [(sclValid_iff _ _).mpr h]

/-- C1 (witness) : from the initial state, at `elapsed = 5000`, the reading 123 of
channel 0 is accepted and becomes `lastRaw0`. -/
theorem updateSCL_accepts_iff_witness :
    throttlePassed State.init 5000 ∧ specAccepts (1023 - 900) State.init.lastRaw0 ∧
      (updateSCL State.init 5000 900 100).lastRaw0 = 123 :=
  ⟨by decide, by decide,
    (updateSCL_accepts_iff State.init 5000 900 100 (by decide) (by decide)
      (by decide)).2.2.2.2.1 (by decide)⟩

/-- C2 : whatever the state and the elapsed time, a reading that fails the filter
(below 0, above 500, or more than 80 away from an existing baseline) leaves the
channel's `lastAccepted`, first-window sum / count and second-window sum / count
exactly as they were. -/
theorem updateSCL_rejected_frame (s : State) (elapsed : Nat) (adc0 adc1 : Int) :
    ((1023 - adc0 < 0 ∨ 1023 - adc0 > 500 ∨
        (s.lastRaw0 ≠ -1 ∧ |1023 - adc0 - s.lastRaw0| > 80)) →
      channel0 (updateSCL s elapsed adc0 adc1) = channel0 s) ∧
    ((1023 - adc1 < 0 ∨ 1023 - adc1 > 500 ∨
        (s.lastRaw1 ≠ -1 ∧ |1023 - adc1 - s.lastRaw1| > 80)) →
      channel1 (updateSCL s elapsed adc0 adc1) = channel1 s) := by
  have key : ∀ raw lastRaw : Int,
      (raw < 0 ∨ raw > 500 ∨ (lastRaw ≠ -1 ∧ |raw - lastRaw| > 80)) →
        ¬ sclValid raw lastRaw = true := by
    intro raw lastRaw h hv
    obtain ⟨h0, h5, hs⟩ := (sclValid_iff _ _).mp hv
    rcases h with h | h | ⟨h1, h2⟩
    · omega
    · omega
    · rcases hs with hs | hs
      · exact h1 hs
      · omega
  by_cases hthr : throttlePassed s elapsed
  · by_cases hin : 5000 ≤ elapsed ∧ elapsed ≤ 45000
    · rw [updateSCL_window s elapsed adc0 adc1 hthr hin.1 hin.2]
      constructor
      · intro h
        simp [channel0, key _ _ h]
      · intro h
        simp [channel1, key _ _ h]
    · rw [updateSCL_outside s elapsed adc0 adc1 hthr (by omega)]
      exact ⟨fun _ => rfl, fun _ => rfl⟩
  · rw [updateSCL_throttled s elapsed adc0 adc1 hthr]
    exact ⟨fun _ => rfl, fun _ => rfl⟩

/-- C2 (witness) : from the initial state, at `elapsed = 5000`, the reading 600 of
channel 0 is rejected and leaves channel 0 unchanged, while the accepted reading of
channel 1 changes channel 1. -/
theorem updateSCL_rejected_frame_witness :
    (1023 - 423 : Int) > 500 ∧
      channel0 (updateSCL State.init 5000 423 600) = channel0 State.init ∧
      channel1 (updateSCL State.init 5000 423 600) ≠ channel1 State.init :=
  ⟨by decide,
    (updateSCL_rejected_frame State.init 5000 423 600).1 (Or.inr (Or.inl (by decide))),
    by decide⟩

/-- C3 : on a tick that passes the throttle with `5000 ≤ elapsed ≤ 45000`, an accepted
sample of value `v` updates exactly one window: when `elapsed - 5000 ≤ 20000` the
first-window sum grows by `v` and its count by 1 while the second window is unchanged;
otherwise the second-window sum grows by `v` and its count by 1 while the first window
is unchanged. -/
theorem updateSCL_one_window (s : State) (elapsed : Nat) (adc0 adc1 : Int)
    (hthr : throttlePassed s elapsed) (hlo : 5000 ≤ elapsed) (hhi : elapsed ≤ 45000) :
    (specAccepts (1023 - adc0) s.lastRaw0 →
      (elapsed - 5000 ≤ 20000 →
        (channel0 (updateSCL s elapsed adc0 adc1)).firstSum
            = (channel0 s).firstSum + (1023 - adc0) ∧
          (channel0 (updateSCL s elapsed adc0 adc1)).firstCount
            = (channel0 s).firstCount + 1 ∧
          (channel0 (updateSCL s elapsed adc0 adc1)).secondSum = (channel0 s).secondSum ∧
          (channel0 (updateSCL s elapsed adc0 adc1)).secondCount
            = (channel0 s).secondCount) ∧
      (¬ elapsed - 5000 ≤ 20000 →
        (channel0 (updateSCL s elapsed adc0 adc1)).secondSum
            = (channel0 s).secondSum + (1023 - adc0) ∧
          (channel0 (updateSCL s elapsed adc0 adc1)).secondCount
            = (channel0 s).secondCount + 1 ∧
          (channel0 (updateSCL s elapsed adc0 adc1)).firstSum = (channel0 s).firstSum ∧
          (channel0 (updateSCL s elapsed adc0 adc1)).firstCount
            = (channel0 s).firstCount)) ∧
    (specAccepts (1023 - adc1) s.lastRaw1 →
      (elapsed - 5000 ≤ 20000 →
        (channel1 (updateSCL s elapsed adc0 adc1)).firstSum
            = (channel1 s).firstSum + (1023 - adc1) ∧
          (channel1 (updateSCL s elapsed adc0 adc1)).firstCount
            = (channel1 s).firstCount + 1 ∧
          (channel1 (updateSCL s elapsed adc0 adc1)).secondSum = (channel1 s).secondSum ∧
          (channel1 (updateSCL s elapsed adc0 adc1)).secondCount
            = (channel1 s).secondCount) ∧
      (¬ elapsed - 5000 ≤ 20000 →
        (channel1 (updateSCL s elapsed adc0 adc1)).secondSum
            = (channel1 s).secondSum + (1023 - adc1) ∧
          (channel1 (updateSCL s elapsed adc0 adc1)).secondCount
            = (channel1 s).secondCount + 1 ∧
          (channel1 (updateSCL s elapsed adc0 adc1)).firstSum = (channel1 s).firstSum ∧
          (channel1 (updateSCL s elapsed adc0 adc1)).firstCount
            = (channel1 s).firstCount)) := by
  rw [updateSCL_window s elapsed adc0 adc1 hthr hlo hhi]
  constructor
  · intro h
    have v := (sclValid_iff _ _).mpr h
    constructor <;> intro hw <;> simp [channel0, v, hw]
  · intro h
    have v := (sclValid_iff _ _).mpr h
    constructor <;> intro hw <;> simp [channel1, v, hw]

/-- C3 (witness) : at `elapsed = 25000`, exactly 20000 ms after the start delay, the
accepted reading 123 is counted in the first window only. -/
theorem updateSCL_one_window_witness :
    throttlePassed State.init 25000 ∧ specAccepts (1023 - 900) State.init.lastRaw0 ∧
      (channel0 (updateSCL State.init 25000 900 100)).firstSum = 123 ∧
      (channel0 (updateSCL State.init 25000 900 100)).firstCount = 1 ∧
      (channel0 (updateSCL State.init 25000 900 100)).secondSum = 0 ∧
      (channel0 (updateSCL State.init 25000 900 100)).secondCount = 0 :=
  ⟨by decide, by decide,
    ((updateSCL_one_window State.init 25000 900 100 (by decide) (by decide)
      (by decide)).1 (by decide)).1 (by decide)⟩

/-- C4 : a call of `updateSCL` with `elapsed < 5000` or `elapsed > 45000` leaves the
scoring state of both channels unchanged whatever the readings; at exactly
`elapsed = 5000` and at exactly `elapsed = 45000` a tick that passes the throttle still
accumulates every accepted reading (into the first window at 5000, into the second at
45000). -/
theorem updateSCL_window_gate (s : State) (elapsed : Nat) (adc0 adc1 : Int) :
    ((elapsed < 5000 ∨ elapsed > 45000) →
      channel0 (updateSCL s elapsed adc0 adc1) = channel0 s ∧
      channel1 (updateSCL s elapsed adc0 adc1) = channel1 s) ∧
    (throttlePassed s 5000 →
      (specAccepts (1023 - adc0) s.lastRaw0 →
        (channel0 (updateSCL s 5000 adc0 adc1)).firstCount = (channel0 s).firstCount + 1 ∧
        (channel0 (updateSCL s 5000 adc0 adc1)).firstSum
          = (channel0 s).firstSum + (1023 - adc0)) ∧
      (specAccepts (1023 - adc1) s.lastRaw1 →
        (channel1 (updateSCL s 5000 adc0 adc1)).firstCount = (channel1 s).firstCount + 1 ∧
        (channel1 (updateSCL s 5000 adc0 adc1)).firstSum
          = (channel1 s).firstSum + (1023 - adc1))) ∧
    (throttlePassed s 45000 →
      (specAccepts (1023 - adc0) s.lastRaw0 →
        (channel0 (updateSCL s 45000 adc0 adc1)).secondCount
          = (channel0 s).secondCount + 1 ∧
        (channel0 (updateSCL s 45000 adc0 adc1)).secondSum
          = (channel0 s).secondSum + (1023 - adc0)) ∧
      (specAccepts (1023 - adc1) s.lastRaw1 →
        (channel1 (updateSCL s 45000 adc0 adc1)).secondCount
          = (channel1 s).secondCount + 1 ∧
        (channel1 (updateSCL s 45000 adc0 adc1)).secondSum
          = (channel1 s).secondSum + (1023 - adc1))) := by
  refine ⟨?_, ?_, ?_⟩
  · intro hout
    by_cases hthr : throttlePassed s elapsed
    · rw [updateSCL_outside s elapsed adc0 adc1 hthr hout]
      exact ⟨rfl, rfl⟩
    · rw [updateSCL_throttled s elapsed adc0 adc1 hthr]
      exact ⟨rfl, rfl⟩
  · intro hthr
    rw [updateSCL_window s 5000 adc0 adc1 hthr (by omega) (by omega)]
    constructor <;> intro h <;> have v := (sclValid_iff _ _).mpr h
    · simp [channel0, v]
    · simp [channel1, v]
  · intro hthr
    rw [updateSCL_window s 45000 adc0 adc1 hthr (by omega) (by omega)]
    constructor <;> intro h <;> have v := (sclValid_iff _ _).mpr h
    · simp [channel0, v]
    · simp [channel1, v]

/-- C4 (witness) : nothing is scored at `elapsed = 4999` and `elapsed = 45001`; a
reading is scored at `elapsed = 5000` and at `elapsed = 45000`. -/
theorem updateSCL_window_gate_witness :
    channel0 (updateSCL State.init 4999 900 100) = channel0 State.init ∧
    channel1 (updateSCL State.init 45001 900 100) = channel1 State.init ∧
    (channel0 (updateSCL State.init 5000 900 100)).firstCount = 1 ∧
    (channel1 (updateSCL State.init 45000 900 600)).secondSum = 423 :=
  ⟨((updateSCL_window_gate State.init 4999 900 100).1 (Or.inl (by decide))).1,
    ((updateSCL_window_gate State.init 45001 900 100).1 (Or.inr (by decide))).2,
    (((updateSCL_window_gate State.init 0 900 100).2.1 (by decide)).1 (by decide)).1,
    (((updateSCL_window_gate State.init 0 900 600).2.2 (by decide)).2 (by decide)).2⟩

/-! ## Claims about `loopConduttanza` -/

/-- The fields of the state that `updateSCL` never writes. -/
theorem updateSCL_frame (s : State) (elapsed : Nat) (adc0 adc1 : Int) :
    (updateSCL s elapsed adc0 adc1).trendEvaluated = s.trendEvaluated ∧
    (updateSCL s elapsed adc0 adc1).serial = s.serial ∧
    (updateSCL s elapsed adc0 adc1).experimentStart = s.experimentStart := by
  by_cases hthr : throttlePassed s elapsed
  · by_cases hin : 5000 ≤ elapsed ∧ elapsed ≤ 45000
    · rw [updateSCL_window s elapsed adc0 adc1 hthr hin.1 hin.2]
      exact ⟨rfl, rfl, rfl⟩
    · rw [updateSCL_outside s elapsed adc0 adc1 hthr (by omega)]
      exact ⟨rfl, rfl, rfl⟩
  · rw [updateSCL_throttled s elapsed adc0 adc1 hthr]
    exact ⟨rfl, rfl, rfl⟩

/-- What `updateSCL` publishes in `exportRaw0` / `exportRaw1`. -/
theorem updateSCL_export (s : State) (elapsed : Nat) (adc0 adc1 : Int) :
    (throttlePassed s elapsed →
      (updateSCL s elapsed adc0 adc1).exportRaw0 = 1023 - adc0 ∧
      (updateSCL s elapsed adc0 adc1).exportRaw1 = 1023 - adc1) ∧
    (¬ throttlePassed s elapsed →
      (updateSCL s elapsed adc0 adc1).exportRaw0 = s.exportRaw0 ∧
      (updateSCL s elapsed adc0 adc1).exportRaw1 = s.exportRaw1) := by
  constructor
  · intro hthr
    by_cases hin : 5000 ≤ elapsed ∧ elapsed ≤ 45000
    · rw [updateSCL_window s elapsed adc0 adc1 hthr hin.1 hin.2]
      exact ⟨rfl, rfl⟩
    · rw [updateSCL_outside s elapsed adc0 adc1 hthr (by omega)]
      exact ⟨rfl, rfl⟩
  · intro hthr
    rw [updateSCL_throttled s elapsed adc0 adc1 hthr]
    exact ⟨rfl, rfl⟩

/-- `loopConduttanza` in closed form: it always returns, and its result is the state
after `updateSCL`, extended by the diagnostic block and the latch when the one-shot
evaluation fires. -/
theorem loopConduttanza_eq (s : State) (t : Tick) :
    loopConduttanza s t =
      some (if usub t.now s.experimentStart > 45000 ∧ s.trendEvaluated = false then
          { (updateSCL s (usub t.now s.experimentStart) t.adc0 t.adc1).print
              (trendLines (updateSCL s (usub t.now s.experimentStart) t.adc0 t.adc1)
                t.fake0 t.fake1) with trendEvaluated := true }
        else updateSCL s (usub t.now s.experimentStart) t.adc0 t.adc1) := by
  unfold loopConduttanza
  have hf := (updateSCL_frame s (usub t.now s.experimentStart) t.adc0 t.adc1).1
  simp only [hf, evaluateSCLTrend_eq, EXPERIMENT_DURATION, Option.bind_eq_bind,
    Option.some_bind, Option.pure_def, Bool.not_eq_true]
  split_ifs <;> rfl

theorem channelLines_count_header (mF mS : ℚ) (i : Nat) (fake : Int) :
    (channelLines mF mS i fake).count SerialLine.header = 0 := by
  unfold channelLines
  split_ifs <;> simp [List.count_cons]

theorem trendLines_count_header (s : State) (fake0 fake1 : Int) :
    (trendLines s fake0 fake1).count SerialLine.header = 1 := by
  unfold trendLines
  simp [List.count_append, channelLines_count_header, List.count_cons]

/-- One call of `loopConduttanza`: it returns; from `EVALUATED` it keeps the latch and
prints nothing; from `RUNNING` it either prints nothing and stays `RUNNING`, or sets
the latch and prints exactly one diagnostic header. -/
theorem loopConduttanza_step (s : State) (t : Tick) :
    ∃ s1, loopConduttanza s t = some s1 ∧
      (s.trendEvaluated = true → s1.trendEvaluated = true ∧ s1.serial = s.serial) ∧
      (s.trendEvaluated = false →
        (s1.trendEvaluated = false ∧ s1.serial = s.serial) ∨
        (s1.trendEvaluated = true ∧
          s1.serial.count SerialLine.header = s.serial.count SerialLine.header + 1)) := by
  refine ⟨_, loopConduttanza_eq s t, ?_, ?_⟩
  · intro h
    obtain ⟨h1, h2, -⟩ := updateSCL_frame s (usub t.now s.experimentStart) t.adc0 t.adc1
    simp [h, h1, h2]
  · intro h
    obtain ⟨h1, h2, -⟩ := updateSCL_frame s (usub t.now s.experimentStart) t.adc0 t.adc1
    by_cases he : usub t.now s.experimentStart > 45000
    · right
      simp [h, he, State.print, h2, List.count_append, trendLines_count_header]
    · left
      simp [h, he, h1, h2]

/-- C5 (as amended) : on every tick of `loopConduttanza` that passes the 50 ms throttle,
whatever the experiment phase, `exportRaw0` / `exportRaw1` are set to that tick's own
readings (`1023 - analogRead`) and the line streamed by `loop` carries them; on a
throttled tick no read is performed, `exportRaw0` / `exportRaw1` keep their previous
values and the streamed line repeats them. -/
theorem loopConduttanza_export (s : State) (t : Tick) :
    ∃ s1 s2, loopConduttanza s t = some s1 ∧ loop s t = some s2 ∧
      (throttlePassed s (usub t.now s.experimentStart) →
        s1.exportRaw0 = 1023 - t.adc0 ∧ s1.exportRaw1 = 1023 - t.adc1 ∧
        s2.serial.getLast? = some (SerialLine.stream (1023 - t.adc0) (1023 - t.adc1)
          (letturaContatto s1 t.lettura).2)) ∧
      (¬ throttlePassed s (usub t.now s.experimentStart) →
        s1.exportRaw0 = s.exportRaw0 ∧ s1.exportRaw1 = s.exportRaw1 ∧
        s2.serial.getLast? = some (SerialLine.stream s.exportRaw0 s.exportRaw1
          (letturaContatto s1 t.lettura).2)) := by
  have hl : ∀ s1, loopConduttanza s t = some s1 →
      ∃ s2, loop s t = some s2 ∧ s2.serial.getLast?
        = some (SerialLine.stream s1.exportRaw0 s1.exportRaw1 (letturaContatto s1 t.lettura).2) := by
    intro s1 h1
    unfold loop
    rw [h1]
    unfold letturaContatto
    split_ifs <;> simp [State.print]
  obtain ⟨s2, h2, h3⟩ := hl _ (loopConduttanza_eq s t)
  refine ⟨_, s2, loopConduttanza_eq s t, h2, ?_, ?_⟩
  · intro hthr
    obtain ⟨e0, e1⟩ :=
      (updateSCL_export s (usub t.now s.experimentStart) t.adc0 t.adc1).1 hthr
    have : ∀ u : State, u.exportRaw0 = 1023 - t.adc0 → u.exportRaw1 = 1023 - t.adc1 →
        s2.serial.getLast?
          = some (SerialLine.stream u.exportRaw0 u.exportRaw1 (letturaContatto u t.lettura).2) →
        u.exportRaw0 = 1023 - t.adc0 ∧ u.exportRaw1 = 1023 - t.adc1 ∧
        s2.serial.getLast? = some (SerialLine.stream (1023 - t.adc0) (1023 - t.adc1)
          (letturaContatto u t.lettura).2) := by
      intro u a b c
      rw [a, b] at c
      exact ⟨a, b, c⟩
    apply this _ _ _ h3
    · split_ifs
      · simpa [State.print] using e0
      · exact e0
    · split_ifs
      · simpa [State.print] using e1
      · exact e1
  · intro hthr
    obtain ⟨e0, e1⟩ :=
      (updateSCL_export s (usub t.now s.experimentStart) t.adc0 t.adc1).2 hthr
    have : ∀ u : State, u.exportRaw0 = s.exportRaw0 → u.exportRaw1 = s.exportRaw1 →
        s2.serial.getLast?
          = some (SerialLine.stream u.exportRaw0 u.exportRaw1 (letturaContatto u t.lettura).2) →
        u.exportRaw0 = s.exportRaw0 ∧ u.exportRaw1 = s.exportRaw1 ∧
        s2.serial.getLast? = some (SerialLine.stream s.exportRaw0 s.exportRaw1
          (letturaContatto u t.lettura).2) := by
      intro u a b c
      rw [a, b] at c
      exact ⟨a, b, c⟩
    apply this _ _ _ h3
    · split_ifs
      · simpa [State.print] using e0
      · exact e0
    · split_ifs
      · simpa [State.print] using e1
      · exact e1

/-- C5 (counterexample) : after `setupConduttanza` at `millis() = 1000`, a first tick at
1050 reads 500 / 400 and publishes 523 / 623; the next tick, 25 ms later, is throttled:
its readings 480 / 410 are never taken, `exportRaw0` / `exportRaw1` stay 523 / 623 and
the streamed line repeats the previous tick's values instead of 543 / 613. -/
theorem loop_streams_stale_reading :
    (runLoop (setupConduttanza State.init 1000)
        [⟨1050, 500, 400, 0, 0, 0⟩, ⟨1075, 480, 410, 0, 0, 0⟩]).map
      (fun s => (s.exportRaw0, s.exportRaw1, s.serial.getLast?))
      = some (523, 623, some (SerialLine.stream 523 623 0)) ∧
    (523 : Int) ≠ 1023 - 480 ∧ (623 : Int) ≠ 1023 - 410 := by
  decide

/-- C5 (witness) : from the initial state the tick at `millis() = 50` passes the
throttle (the one at 49 would not), publishes 523 and streams `523 623 0`. -/
theorem loopConduttanza_export_witness :
    throttlePassed State.init (usub 50 State.init.experimentStart) ∧
    ¬ throttlePassed State.init (usub 49 State.init.experimentStart) ∧
    ∃ s1 s2, loopConduttanza State.init ⟨50, 500, 400, 0, 0, 0⟩ = some s1 ∧
      loop State.init ⟨50, 500, 400, 0, 0, 0⟩ = some s2 ∧ s1.exportRaw0 = 523 ∧
      s2.serial.getLast? = some (SerialLine.stream 523 623 0) := by
  refine ⟨by decide, by decide, ?_⟩
  obtain ⟨s1, s2, h1, h2, h3, -⟩ := loopConduttanza_export State.init ⟨50, 500, 400, 0, 0, 0⟩
  obtain ⟨e0, -, e2⟩ := h3 (by decide)
  refine ⟨s1, s2, h1, h2, by simpa using e0, ?_⟩
  rw [e2]
  simp [letturaContatto, SOGLIA_STRETTA]

/-- C6 : over any sequence of calls of `loopConduttanza` (any clock values, any
readings) the run returns, the diagnostic block is emitted at most once (the number of
header lines grows by at most one), and from a state with `trendEvaluated = true` the
latch stays `true` and nothing more is printed. -/
theorem runConduttanza_evaluates_once (s : State) (ts : List Tick) :
    ∃ s1, runConduttanza s ts = some s1 ∧
      s1.serial.count SerialLine.header ≤ s.serial.count SerialLine.header + 1 ∧
      (s.trendEvaluated = true → s1.trendEvaluated = true ∧ s1.serial = s.serial) := by
  induction ts generalizing s with
  | nil => exact ⟨s, rfl, Nat.le_succ _, fun h => ⟨h, rfl⟩⟩
  | cons t ts ih =>
    obtain ⟨s1, h1, ha, hb⟩ := loopConduttanza_step s t
    obtain ⟨s2, h2, hc, hd⟩ := ih s1
    refine ⟨s2, ?_, ?_, ?_⟩
    · simp [runConduttanza, h1, h2]
    · cases hte : s.trendEvaluated with
      | true =>
        obtain ⟨e1, e2⟩ := ha hte
        obtain ⟨-, e4⟩ := hd e1
        rw [e4, e2]
        exact Nat.le_succ _
      | false =>
        rcases hb hte with ⟨-, e2⟩ | ⟨e1, e2⟩
        · rw [e2] at hc
          exact hc
        · obtain ⟨-, e4⟩ := hd e1
          rw [e4, e2]
    · intro hte
      obtain ⟨e1, e2⟩ := ha hte
      obtain ⟨e3, e4⟩ := hd e1
      exact ⟨e3, e4.trans e2⟩

/-- C6 (witness) : three ticks past the experiment duration print at most one
diagnostic header. -/
theorem runConduttanza_evaluates_once_witness :
    ∃ s1, runConduttanza State.init
        [⟨45001, 500, 400, 0, 0, 0⟩, ⟨45060, 500, 400, 0, 0, 0⟩, ⟨99999, 1, 2, 1, 1, 0⟩]
        = some s1 ∧
      s1.serial.count SerialLine.header ≤ 1 :=
  (runConduttanza_evaluates_once State.init
    [⟨45001, 500, 400, 0, 0, 0⟩, ⟨45060, 500, 400, 0, 0, 0⟩, ⟨99999, 1, 2, 1, 1, 0⟩]).imp
    fun _ h => ⟨h.1, h.2.1⟩

/-- C7 : from `RUNNING` (`trendEvaluated = false`) a tick, throttled or not, returns
with `trendEvaluated = true` and with the diagnostic block of `evaluateSCLTrend`
appended if and only if `elapsed > 45000`; otherwise (in particular at exactly 45000)
the latch stays `false` and nothing is printed. -/
theorem loopConduttanza_fires_iff (s : State) (t : Tick) (h : s.trendEvaluated = false) :
    ∃ s1, loopConduttanza s t = some s1 ∧
      (s1.trendEvaluated = true ↔ usub t.now s.experimentStart > 45000) ∧
      (usub t.now s.experimentStart > 45000 →
        s1.serial = s.serial ++
          trendLines (updateSCL s (usub t.now s.experimentStart) t.adc0 t.adc1)
            t.fake0 t.fake1) ∧
      (¬ usub t.now s.experimentStart > 45000 → s1.serial = s.serial) := by
  obtain ⟨h1, h2, -⟩ := updateSCL_frame s (usub t.now s.experimentStart) t.adc0 t.adc1
  refine ⟨_, loopConduttanza_eq s t, ?_, ?_, ?_⟩
  · by_cases he : usub t.now s.experimentStart > 45000
    · simp [h, he]
    · simp [h, he, h1]
  · intro he
    simp [h, he, State.print, h2]
  · intro he
    simp [h, he, h2]

/-- C7 (witness) : a throttled tick at `elapsed = 45001` fires the evaluation; a tick at
exactly `elapsed = 45000` does not and prints nothing. -/
theorem loopConduttanza_fires_iff_witness :
    ¬ throttlePassed { State.init with lastSCLSampleElapsed := 45000 } 45001 ∧
    (∃ s1, loopConduttanza { State.init with lastSCLSampleElapsed := 45000 }
        ⟨45001, 500, 400, 0, 0, 0⟩ = some s1 ∧ s1.trendEvaluated = true) ∧
    (∃ s1, loopConduttanza State.init ⟨45000, 500, 400, 0, 0, 0⟩ = some s1 ∧
      s1.trendEvaluated = false ∧ s1.serial = []) := by
  refine ⟨by decide, ?_, ?_⟩
  · obtain ⟨s1, e, hiff, -, -⟩ := loopConduttanza_fires_iff
      { State.init with lastSCLSampleElapsed := 45000 } ⟨45001, 500, 400, 0, 0, 0⟩ rfl
    exact ⟨s1, e, hiff.mpr (by decide)⟩
  · obtain ⟨s1, e, hiff, -, hno⟩ := loopConduttanza_fires_iff
      State.init ⟨45000, 500, 400, 0, 0, 0⟩ rfl
    refine ⟨s1, e, ?_, hno (by decide)⟩
    cases hte : s1.trendEvaluated with
    | false => rfl
    | true => exact absurd (hiff.mp hte) (by decide)

/-! ## Claims about `evaluateSCLTrend` -/

/-- The verdict reported for person 0 in the text printed by `evaluateSCLTrend`. -/
theorem reportedVerdict_trendLines_zero (s : State) (fake0 fake1 : Int) :
    reportedVerdict (trendLines s fake0 fake1) 0 =
      some (if meanF32 s.firstHalfSumSCL.1 s.firstHalfCountSCL.1 = 0 ∨
              meanF32 s.secondHalfSumSCL.1 s.secondHalfCountSCL.1 = 0 then
          Verdict.insufficientData (fake0 == 1)
        else if relDiffF32 (meanF32 s.firstHalfSumSCL.1 s.firstHalfCountSCL.1)
              (meanF32 s.secondHalfSumSCL.1 s.secondHalfCountSCL.1) ≥ THRESHOLD_REL_SCL then
          Verdict.yes
        else Verdict.no) := by
  unfold trendLines reportedVerdict channelLines
  split_ifs <;> simp [List.dropWhile, firstVerdict]

/-- The verdict reported for person 1 in the text printed by `evaluateSCLTrend`. -/
theorem reportedVerdict_trendLines_one (s : State) (fake0 fake1 : Int) :
    reportedVerdict (trendLines s fake0 fake1) 1 =
      some (if meanF32 s.firstHalfSumSCL.2 s.firstHalfCountSCL.2 = 0 ∨
              meanF32 s.secondHalfSumSCL.2 s.secondHalfCountSCL.2 = 0 then
          Verdict.insufficientData (fake1 == 1)
        else if relDiffF32 (meanF32 s.firstHalfSumSCL.2 s.firstHalfCountSCL.2)
              (meanF32 s.secondHalfSumSCL.2 s.secondHalfCountSCL.2) ≥ THRESHOLD_REL_SCL then
          Verdict.yes
        else Verdict.no) := by
  unfold trendLines reportedVerdict channelLines
  split_ifs <;> simp [List.dropWhile, firstVerdict]

/-- C8 (counterexample) : after `setupConduttanza` at `millis() = 2`, channel 0 accepts
33, 33, 34 in the first window (elapsed 5000, 5050, 5100) and 30 in the second (elapsed
25050); the evaluation fires at elapsed 45001.  The exact means are 100/3 and 30 and
the exact relative change is exactly 0.10; the single-precision computation of
`evaluateSCLTrend` (the mean 100/3 is rounded down) yields a relative change below the
threshold and the verdict printed is NO. -/
theorem evaluateSCLTrend_exact_threshold_no :
    (runConduttanza (setupConduttanza State.init 2)
        [⟨5002, 990, 990, 0, 0, 0⟩, ⟨5052, 990, 990, 0, 0, 0⟩, ⟨5102, 989, 989, 0, 0, 0⟩,
          ⟨25052, 993, 993, 0, 0, 0⟩, ⟨45003, 993, 993, 0, 0, 0⟩]).map
      (fun s => (channel0 s, reportedVerdict s.serial 0))
      = some (⟨30, 100, 3, 30, 1⟩, some Verdict.no) ∧
    ((100 : ℚ) / 3 ≠ 0 ∧ (30 : ℚ) / 1 ≠ 0) ∧
    ((100 : ℚ) / 3 - 30 / 1) / (100 / 3) ≥ 1 / 10 := by
  refine ⟨by decide!, by norm_num, by norm_num⟩

/-- C8 (as amended) : `evaluateSCLTrend` returns, and for every channel whose two window
means are both non-zero the verdict it prints is YES if and only if the relative change
computed in single precision, `fl (fl (meanFirst - meanSecond) / meanFirst)` with
`meanFirst = fl (fl sumFirst / fl countFirst)` and `meanSecond` likewise, is at least
`fl 0.10`, and NO otherwise. -/
theorem evaluateSCLTrend_verdict (s : State) (fake0 fake1 : Int) :
    ∃ out, evaluateSCLTrend s fake0 fake1 = some (s.print out) ∧
      (meanF32 (channel0 s).firstSum (channel0 s).firstCount ≠ 0 →
        meanF32 (channel0 s).secondSum (channel0 s).secondCount ≠ 0 →
        reportedVerdict out 0 = some
          (if relDiffF32 (meanF32 (channel0 s).firstSum (channel0 s).firstCount)
              (meanF32 (channel0 s).secondSum (channel0 s).secondCount) ≥ THRESHOLD_REL_SCL
            then Verdict.yes else Verdict.no)) ∧
      (meanF32 (channel1 s).firstSum (channel1 s).firstCount ≠ 0 →
        meanF32 (channel1 s).secondSum (channel1 s).secondCount ≠ 0 →
        reportedVerdict out 1 = some
          (if relDiffF32 (meanF32 (channel1 s).firstSum (channel1 s).firstCount)
              (meanF32 (channel1 s).secondSum (channel1 s).secondCount) ≥ THRESHOLD_REL_SCL
            then Verdict.yes else Verdict.no)) := by
  refine ⟨_, evaluateSCLTrend_eq s fake0 fake1, ?_, ?_⟩
  · intro h1 h2
    rw [reportedVerdict_trendLines_zero]
    simp only [channel0] at h1 h2 ⊢
    simp [h1, h2]
  · intro h1 h2
    rw [reportedVerdict_trendLines_one]
    simp only [channel1] at h1 h2 ⊢
    simp [h1, h2]

/-- C8 (witness) : sums 1000 / 800 over 10 samples each (Scenario A) give the verdict
YES for person 0. -/
theorem evaluateSCLTrend_verdict_witness :
    ∃ out, evaluateSCLTrend
        { State.init with
          firstHalfSumSCL := (1000, 0), firstHalfCountSCL := (10, 0),
          secondHalfSumSCL := (800, 0), secondHalfCountSCL := (10, 0) } 0 0
        = some (State.print { State.init with
          firstHalfSumSCL := (1000, 0), firstHalfCountSCL := (10, 0),
          secondHalfSumSCL := (800, 0), secondHalfCountSCL := (10, 0) } out) ∧
      reportedVerdict out 0 = some Verdict.yes := by
  obtain ⟨out, h, h0, -⟩ := evaluateSCLTrend_verdict
    { State.init with
      firstHalfSumSCL := (1000, 0), firstHalfCountSCL := (10, 0),
      secondHalfSumSCL := (800, 0), secondHalfCountSCL := (10, 0) } 0 0
  refine ⟨out, h, ?_⟩
  rw [h0 (by decide!) (by decide!)]
  decide!

/-- C9 : whatever the state, `evaluateSCLTrend` returns (no division by zero occurs);
for every channel whose first-window or second-window count is 0 it reports
insufficient data together with a simulated SI / NO placeholder; and the text printed
always contains the block of person 0, the block of person 1 and the closing line, so
an insufficient channel does not stop the evaluation. -/
theorem evaluateSCLTrend_insufficient (s : State) (fake0 fake1 : Int) :
    ∃ out, evaluateSCLTrend s fake0 fake1 = some (s.print out) ∧
      (((channel0 s).firstCount = 0 ∨ (channel0 s).secondCount = 0) →
        reportedVerdict out 0 = some (Verdict.insufficientData (fake0 == 1))) ∧
      (((channel1 s).firstCount = 0 ∨ (channel1 s).secondCount = 0) →
        reportedVerdict out 1 = some (Verdict.insufficientData (fake1 == 1))) ∧
      SerialLine.persona 0 ∈ out ∧ SerialLine.persona 1 ∈ out ∧
      out.getLast? = some SerialLine.footer := by
  have hz : ∀ sum count : Int, count = 0 → meanF32 sum count = 0 := by
    intro sum count h
    simp [meanF32, h]
  refine ⟨_, evaluateSCLTrend_eq s fake0 fake1, ?_, ?_, ?_, ?_, ?_⟩
  · intro h
    rw [reportedVerdict_trendLines_zero]
    have : meanF32 s.firstHalfSumSCL.1 s.firstHalfCountSCL.1 = 0 ∨
        meanF32 s.secondHalfSumSCL.1 s.secondHalfCountSCL.1 = 0 :=
      h.imp (hz _ _) (hz _ _)
    rw [if_pos this]
  · intro h
    rw [reportedVerdict_trendLines_one]
    have : meanF32 s.firstHalfSumSCL.2 s.firstHalfCountSCL.2 = 0 ∨
        meanF32 s.secondHalfSumSCL.2 s.secondHalfCountSCL.2 = 0 :=
      h.imp (hz _ _) (hz _ _)
    rw [if_pos this]
  · unfold trendLines channelLines
    split_ifs <;> simp
  · unfold trendLines channelLines
    split_ifs <;> simp
  · unfold trendLines
    exact List.getLast?_concat _

/-- C9 (witness) : person 1 with no sample in the first window and 10 samples of 100 in
the second (Scenario B) gets the insufficient-data verdict with the placeholder SI
(`random` returned 1), and the block is followed by the closing line. -/
theorem evaluateSCLTrend_insufficient_witness :
    ∃ out, evaluateSCLTrend
        { State.init with secondHalfSumSCL := (0, 1000), secondHalfCountSCL := (0, 10) } 0 1
        = some (State.print
          { State.init with secondHalfSumSCL := (0, 1000), secondHalfCountSCL := (0, 10) }
          out) ∧
      reportedVerdict out 1 = some (Verdict.insufficientData true) ∧
      SerialLine.persona 1 ∈ out ∧ out.getLast? = some SerialLine.footer := by
  obtain ⟨out, h, -, h1, -, h2, h3⟩ := evaluateSCLTrend_insufficient
    { State.init with secondHalfSumSCL := (0, 1000), secondHalfCountSCL := (0, 10) } 0 1
  exact ⟨out, h, h1 (Or.inl rfl), h2, h3⟩

/-- C10 (counterexample) : after `setupConduttanza` at `millis() = 2`, channel 0 accepts
the value 50 in the first window (elapsed 5000) and the value 0 (`analogRead = 1023`) in
the second (elapsed 25050).  At the evaluation (elapsed 45001) both counts of channel 0
are 1 and the exact relative change is (50 - 0) / 50 = 1, yet the verdict printed for
it is the insufficient-data one, not a measured SI / NO. -/
theorem evaluateSCLTrend_zero_mean_insufficient :
    (runConduttanza (setupConduttanza State.init 2)
        [⟨5002, 973, 973, 0, 0, 0⟩, ⟨25052, 1023, 1023, 0, 0, 0⟩,
          ⟨45003, 1023, 1023, 1, 0, 0⟩]).map
      (fun s => (channel0 s, reportedVerdict s.serial 0))
      = some (⟨0, 50, 1, 0, 1⟩, some (Verdict.insufficientData true)) := by
  decide!

/-- C10 (as amended) : `evaluateSCLTrend` returns, and for every channel whose two
window counts are positive and whose two window sums are non-zero it prints a measured
SI / NO verdict; the insufficient-data verdict (with its placeholder) is printed for a
channel exactly when one of its windows has no sample or has the sum 0, the guard
`meanFirst == 0.0 || meanSecond == 0.0` of line 177. -/
theorem evaluateSCLTrend_measured (s : State) (fake0 fake1 : Int) :
    ∃ out, evaluateSCLTrend s fake0 fake1 = some (s.print out) ∧
      ((0 < (channel0 s).firstCount ∧ (channel0 s).firstSum ≠ 0 ∧
          0 < (channel0 s).secondCount ∧ (channel0 s).secondSum ≠ 0) →
        reportedVerdict out 0 = some Verdict.yes ∨ reportedVerdict out 0 = some Verdict.no) ∧
      (reportedVerdict out 0 = some (Verdict.insufficientData (fake0 == 1)) ↔
        ((channel0 s).firstCount ≤ 0 ∨ (channel0 s).firstSum = 0 ∨
          (channel0 s).secondCount ≤ 0 ∨ (channel0 s).secondSum = 0)) ∧
      ((0 < (channel1 s).firstCount ∧ (channel1 s).firstSum ≠ 0 ∧
          0 < (channel1 s).secondCount ∧ (channel1 s).secondSum ≠ 0) →
        reportedVerdict out 1 = some Verdict.yes ∨ reportedVerdict out 1 = some Verdict.no) ∧
      (reportedVerdict out 1 = some (Verdict.insufficientData (fake1 == 1)) ↔
        ((channel1 s).firstCount ≤ 0 ∨ (channel1 s).firstSum = 0 ∨
          (channel1 s).secondCount ≤ 0 ∨ (channel1 s).secondSum = 0)) := by
  have key : ∀ (fs fc ss sc : Int) (fake : Int) (v : Option Verdict),
      v = some (if meanF32 fs fc = 0 ∨ meanF32 ss sc = 0 then
          Verdict.insufficientData (fake == 1)
        else if relDiffF32 (meanF32 fs fc) (meanF32 ss sc) ≥ THRESHOLD_REL_SCL then
          Verdict.yes
        else Verdict.no) →
      ((0 < fc ∧ fs ≠ 0 ∧ 0 < sc ∧ ss ≠ 0) →
        v = some Verdict.yes ∨ v = some Verdict.no) ∧
      (v = some (Verdict.insufficientData (fake == 1)) ↔
        (fc ≤ 0 ∨ fs = 0 ∨ sc ≤ 0 ∨ ss = 0)) := by
    intro fs fc ss sc fake v hv
    have hcond : (meanF32 fs fc = 0 ∨ meanF32 ss sc = 0) ↔
        (fc ≤ 0 ∨ fs = 0 ∨ sc ≤ 0 ∨ ss = 0) := by
      rw [meanF32_eq_zero_iff, meanF32_eq_zero_iff]
      constructor
      · rintro ((h | h) | (h | h))
        · exact Or.inl h
        · exact Or.inr (Or.inl h)
        · exact Or.inr (Or.inr (Or.inl h))
        · exact Or.inr (Or.inr (Or.inr h))
      · rintro (h | h | h | h)
        · exact Or.inl (Or.inl h)
        · exact Or.inl (Or.inr h)
        · exact Or.inr (Or.inl h)
        · exact Or.inr (Or.inr h)
    by_cases hc : meanF32 fs fc = 0 ∨ meanF32 ss sc = 0
    · rw [if_pos hc] at hv
      constructor
      · rintro ⟨h1, h2, h3, h4⟩
        rcases hcond.mp hc with h | h | h | h
        · omega
        · exact absurd h h2
        · omega
        · exact absurd h h4
      · exact ⟨fun _ => hcond.mp hc, fun _ => hv⟩
    · rw [if_neg hc] at hv
      constructor
      · intro _
        split_ifs at hv
        · exact Or.inl hv
        · exact Or.inr hv
      · constructor
        · intro h
          rw [hv] at h
          split_ifs at h <;> simp at h
        · intro h
          exact absurd (hcond.mpr h) hc
  obtain ⟨k1, k2⟩ := key _ _ _ _ fake0 _ (reportedVerdict_trendLines_zero s fake0 fake1)
  obtain ⟨k3, k4⟩ := key _ _ _ _ fake1 _ (reportedVerdict_trendLines_one s fake0 fake1)
  exact ⟨_, evaluateSCLTrend_eq s fake0 fake1, k1, k2, k3, k4⟩

/-- C10 (witness) : with sums 1000 / 800 over 10 samples each, channel 0 has positive
counts and non-zero sums and gets a measured verdict. -/
theorem evaluateSCLTrend_measured_witness :
    ∃ out, evaluateSCLTrend
        { State.init with
          firstHalfSumSCL := (1000, 0), firstHalfCountSCL := (10, 0),
          secondHalfSumSCL := (800, 0), secondHalfCountSCL := (10, 0) } 0 0
        = some (State.print { State.init with
          firstHalfSumSCL := (1000, 0), firstHalfCountSCL := (10, 0),
          secondHalfSumSCL := (800, 0), secondHalfCountSCL := (10, 0) } out) ∧
      (reportedVerdict out 0 = some Verdict.yes ∨ reportedVerdict out 0 = some Verdict.no) ∧
      reportedVerdict out 1 = some (Verdict.insufficientData false) := by
  obtain ⟨out, h, h0, -, -, h1⟩ := evaluateSCLTrend_measured
    { State.init with
      firstHalfSumSCL := (1000, 0), firstHalfCountSCL := (10, 0),
      secondHalfSumSCL := (800, 0), secondHalfCountSCL := (10, 0) } 0 0
  exact ⟨out, h, h0 (by decide), h1.mpr (by decide)⟩

/-! ## Claims about `letturaContatto` -/

/-- C11 : for every capacitive reading `m`, `letturaContatto` returns `m` when
`m > 2000` and 0 otherwise (so at `m = 2000` and for negative readings too); the result
is always 0 or strictly greater than 2000; 1500 gives 0 and 2500 gives 2500. -/
theorem letturaContatto_threshold (s : State) (m : Int) :
    (letturaContatto s m).2 = (if m > 2000 then m else 0) ∧
    ((letturaContatto s m).2 = 0 ∨ (letturaContatto s m).2 > 2000) ∧
    (letturaContatto s 2000).2 = 0 ∧ (letturaContatto s (-1)).2 = 0 ∧
    (letturaContatto s 1500).2 = 0 ∧ (letturaContatto s 2500).2 = 2500 := by
  refine ⟨?_, ?_, ?_, ?_, ?_, ?_⟩
  · unfold letturaContatto SOGLIA_STRETTA
    split_ifs <;> rfl
  · unfold letturaContatto SOGLIA_STRETTA
    split_ifs with h
    · right; exact h
    · left; rfl
  all_goals simp [letturaContatto, SOGLIA_STRETTA]

/-! ## Lemmas about runs of `updateSCL` -/

/-- The time stamp of the throttle after a call of `updateSCL`. -/
theorem updateSCL_last (s : State) (elapsed : Nat) (adc0 adc1 : Int) :
    (updateSCL s elapsed adc0 adc1).lastSCLSampleElapsed
      = if throttlePassed s elapsed then elapsed else s.lastSCLSampleElapsed := by
  by_cases hthr : throttlePassed s elapsed
  · rw [if_pos hthr]
    by_cases hin : 5000 ≤ elapsed ∧ elapsed ≤ 45000
    · rw [updateSCL_window s elapsed adc0 adc1 hthr hin.1 hin.2]
    · rw [updateSCL_outside s elapsed adc0 adc1 hthr (by omega)]
  · rw [if_neg hthr, updateSCL_throttled s elapsed adc0 adc1 hthr]

/-- With the time stamp not after `elapsed`, a tick that passes the throttle is at
least 50 ms after the time stamp. -/
theorem throttlePassed_spacing (s : State) (elapsed : Nat)
    (hle : s.lastSCLSampleElapsed ≤ elapsed) (hthr : throttlePassed s elapsed) :
    s.lastSCLSampleElapsed + 50 ≤ elapsed := by
  unfold throttlePassed usub ULONG_RANGE SCL_SAMPLE_INTERVAL at hthr
  omega

/-- For `unsigned long` values in time order the throttle test is the plain comparison
of the difference with 50. -/
theorem throttlePassed_iff (s : State) (elapsed : Nat)
    (hle : s.lastSCLSampleElapsed ≤ elapsed) (hb : elapsed < ULONG_RANGE) :
    throttlePassed s elapsed ↔ ¬ elapsed - s.lastSCLSampleElapsed < 50 := by
  unfold throttlePassed usub SCL_SAMPLE_INTERVAL
  unfold ULONG_RANGE at *
  omega

theorem timeOrdered_mono (a b : Nat) (ts : List Sample) (h : timeOrdered a ts)
    (hba : b ≤ a) : timeOrdered b ts := by
  cases ts with
  | nil => trivial
  | cons t ts => exact ⟨le_trans hba h.1, h.2⟩

/-- The time order of a run is kept by a call of `updateSCL`. -/
theorem timeOrdered_step (s : State) (t : Sample) (ts : List Sample)
    (h : timeOrdered s.lastSCLSampleElapsed (t :: ts)) :
    timeOrdered (updateSCL s t.elapsed t.adc0 t.adc1).lastSCLSampleElapsed ts := by
  rw [updateSCL_last]
  split_ifs
  · exact h.2
  · exact timeOrdered_mono _ _ _ h.2 h.1

/-- The processed samples of a time-ordered run are at least 50 ms after the initial
time stamp and at least 50 ms apart. -/
theorem processedTimes_spacing (s : State) (ts : List Sample)
    (h : timeOrdered s.lastSCLSampleElapsed ts) :
    (∀ x ∈ processedTimes s ts, s.lastSCLSampleElapsed + 50 ≤ x) ∧
    (processedTimes s ts).Pairwise (fun a b => a + 50 ≤ b) := by
  induction ts generalizing s with
  | nil => exact ⟨fun x hx => by simp [processedTimes] at hx, by simp [processedTimes]⟩
  | cons t ts ih =>
    obtain ⟨ih1, ih2⟩ := ih _ (timeOrdered_step s t ts h)
    rw [updateSCL_last] at ih1
    unfold processedTimes
    by_cases hthr : throttlePassed s t.elapsed
    · have hsp := throttlePassed_spacing s t.elapsed h.1 hthr
      simp only [hthr, if_true] at ih1 ⊢
      constructor
      · intro x hx
        rcases List.mem_cons.mp hx with hx | hx
        · omega
        · have := ih1 x hx
          omega
      · exact List.pairwise_cons.mpr ⟨ih1, ih2⟩
    · simp only [hthr, if_false] at ih1 ⊢
      exact ⟨ih1, ih2⟩

/-- A run whose channel-0 readings are all rejected leaves channel 0 as it was. -/
theorem rejectedRun0_channel (s : State) (ts : List Sample) (h : rejectedRun0 s ts) :
    channel0 (runSCL s ts) = channel0 s := by
  induction ts generalizing s with
  | nil => rfl
  | cons t ts ih =>
    have hstep : channel0 (updateSCL s t.elapsed t.adc0 t.adc1) = channel0 s := by
      by_cases hthr : throttlePassed s t.elapsed
      · by_cases hin : 5000 ≤ t.elapsed ∧ t.elapsed ≤ 45000
        · rw [updateSCL_window s t.elapsed t.adc0 t.adc1 hthr hin.1 hin.2]
          have hv : ¬ sclValid (1023 - t.adc0) s.lastRaw0 = true :=
            fun hv => h.1 ((sclValid_iff _ _).mp hv)
          simp [channel0, hv]
        · rw [updateSCL_outside s t.elapsed t.adc0 t.adc1 hthr (by omega)]
          rfl
      · rw [updateSCL_throttled s t.elapsed t.adc0 t.adc1 hthr]
    unfold runSCL
    rw [ih _ h.2, hstep]

/-- A run whose channel-1 readings are all rejected leaves channel 1 as it was. -/
theorem rejectedRun1_channel (s : State) (ts : List Sample) (h : rejectedRun1 s ts) :
    channel1 (runSCL s ts) = channel1 s := by
  induction ts generalizing s with
  | nil => rfl
  | cons t ts ih =>
    have hstep : channel1 (updateSCL s t.elapsed t.adc0 t.adc1) = channel1 s := by
      by_cases hthr : throttlePassed s t.elapsed
      · by_cases hin : 5000 ≤ t.elapsed ∧ t.elapsed ≤ 45000
        · rw [updateSCL_window s t.elapsed t.adc0 t.adc1 hthr hin.1 hin.2]
          have hv : ¬ sclValid (1023 - t.adc1) s.lastRaw1 = true :=
            fun hv => h.1 ((sclValid_iff _ _).mp hv)
          simp [channel1, hv]
        · rw [updateSCL_outside s t.elapsed t.adc0 t.adc1 hthr (by omega)]
          rfl
      · rw [updateSCL_throttled s t.elapsed t.adc0 t.adc1 hthr]
    unfold runSCL
    rw [ih _ h.2, hstep]

/-- The range invariant of channel 0 is kept by every call of `updateSCL`. -/
theorem updateSCL_inRange0 (s : State) (elapsed : Nat) (adc0 adc1 : Int)
    (h : (channel0 s).inRange) : (channel0 (updateSCL s elapsed adc0 adc1)).inRange := by
  by_cases hthr : throttlePassed s elapsed
  · by_cases hin : 5000 ≤ elapsed ∧ elapsed ≤ 45000
    · rw [updateSCL_window s elapsed adc0 adc1 hthr hin.1 hin.2]
      unfold Channel.inRange channel0 at *
      simp only at h ⊢
      by_cases hv : sclValid (1023 - adc0) s.lastRaw0 = true
      · obtain ⟨h0, h5, -⟩ := (sclValid_iff _ _).mp hv
        by_cases hw : elapsed - 5000 ≤ 20000 <;> simp only [hv, hw, true_and, and_true,
          if_true, if_false, not_true_eq_false, not_false_eq_true, and_false] <;> omega
      · simp only [hv, false_and, if_false]
        exact h
    · rw [updateSCL_outside s elapsed adc0 adc1 hthr (by omega)]
      exact h
  · rw [updateSCL_throttled s elapsed adc0 adc1 hthr]
    exact h

/-- The range invariant of channel 1 is kept by every call of `updateSCL`. -/
theorem updateSCL_inRange1 (s : State) (elapsed : Nat) (adc0 adc1 : Int)
    (h : (channel1 s).inRange) : (channel1 (updateSCL s elapsed adc0 adc1)).inRange := by
  by_cases hthr : throttlePassed s elapsed
  · by_cases hin : 5000 ≤ elapsed ∧ elapsed ≤ 45000
    · rw [updateSCL_window s elapsed adc0 adc1 hthr hin.1 hin.2]
      unfold Channel.inRange channel1 at *
      simp only at h ⊢
      by_cases hv : sclValid (1023 - adc1) s.lastRaw1 = true
      · obtain ⟨h0, h5, -⟩ := (sclValid_iff _ _).mp hv
        by_cases hw : elapsed - 5000 ≤ 20000 <;> simp only [hv, hw, true_and, and_true,
          if_true, if_false, not_true_eq_false, not_false_eq_true, and_false] <;> omega
      · simp only [hv, false_and, if_false]
        exact h
    · rw [updateSCL_outside s elapsed adc0 adc1 hthr (by omega)]
      exact h
  · rw [updateSCL_throttled s elapsed adc0 adc1 hthr]
    exact h

/-- The range invariant of both channels holds after every run that starts in a state
where it holds. -/
theorem runSCL_inRange (s : State) (ts : List Sample)
    (h0 : (channel0 s).inRange) (h1 : (channel1 s).inRange) :
    (channel0 (runSCL s ts)).inRange ∧ (channel1 (runSCL s ts)).inRange := by
  induction ts generalizing s with
  | nil => exact ⟨h0, h1⟩
  | cons t ts ih =>
    exact ih _ (updateSCL_inRange0 s t.elapsed t.adc0 t.adc1 h0)
      (updateSCL_inRange1 s t.elapsed t.adc0 t.adc1 h1)

theorem init_inRange : (channel0 State.init).inRange ∧ (channel1 State.init).inRange := by
  unfold Channel.inRange channel0 channel1 State.init
  simp

/-- The time budget of channel 0 is kept by a call of `updateSCL` that is not before
the throttle time stamp. -/
theorem updateSCL_inBudget0 (s : State) (elapsed : Nat) (adc0 adc1 : Int)
    (hle : s.lastSCLSampleElapsed ≤ elapsed)
    (h : (channel0 s).inBudget s.lastSCLSampleElapsed) :
    (channel0 (updateSCL s elapsed adc0 adc1)).inBudget
      (updateSCL s elapsed adc0 adc1).lastSCLSampleElapsed := by
  by_cases hthr : throttlePassed s elapsed
  · have hsp := throttlePassed_spacing s elapsed hle hthr
    by_cases hin : 5000 ≤ elapsed ∧ elapsed ≤ 45000
    · rw [updateSCL_window s elapsed adc0 adc1 hthr hin.1 hin.2]
      unfold Channel.inBudget channel0 firstBudget secondBudget at *
      simp only at h ⊢
      by_cases hv : sclValid (1023 - adc0) s.lastRaw0 = true <;>
      by_cases hw : elapsed - 5000 ≤ 20000 <;>
      simp only [hv, hw, true_and, and_true, false_and, if_true, if_false,
        not_true_eq_false, not_false_eq_true, and_false] <;>
      split_ifs at h ⊢ <;> omega
    · rw [updateSCL_outside s elapsed adc0 adc1 hthr (by omega)]
      unfold Channel.inBudget channel0 firstBudget secondBudget at *
      simp only at h ⊢
      split_ifs at h ⊢ <;> omega
  · rw [updateSCL_throttled s elapsed adc0 adc1 hthr]
    exact h

/-- The time budget of channel 1 is kept by a call of `updateSCL` that is not before
the throttle time stamp. -/
theorem updateSCL_inBudget1 (s : State) (elapsed : Nat) (adc0 adc1 : Int)
    (hle : s.lastSCLSampleElapsed ≤ elapsed)
    (h : (channel1 s).inBudget s.lastSCLSampleElapsed) :
    (channel1 (updateSCL s elapsed adc0 adc1)).inBudget
      (updateSCL s elapsed adc0 adc1).lastSCLSampleElapsed := by
  by_cases hthr : throttlePassed s elapsed
  · have hsp := throttlePassed_spacing s elapsed hle hthr
    by_cases hin : 5000 ≤ elapsed ∧ elapsed ≤ 45000
    · rw [updateSCL_window s elapsed adc0 adc1 hthr hin.1 hin.2]
      unfold Channel.inBudget channel1 firstBudget secondBudget at *
      simp only at h ⊢
      by_cases hv : sclValid (1023 - adc1) s.lastRaw1 = true <;>
      by_cases hw : elapsed - 5000 ≤ 20000 <;>
      simp only [hv, hw, true_and, and_true, false_and, if_true, if_false,
        not_true_eq_false, not_false_eq_true, and_false] <;>
      split_ifs at h ⊢ <;> omega
    · rw [updateSCL_outside s elapsed adc0 adc1 hthr (by omega)]
      unfold Channel.inBudget channel1 firstBudget secondBudget at *
      simp only at h ⊢
      split_ifs at h ⊢ <;> omega
  · rw [updateSCL_throttled s elapsed adc0 adc1 hthr]
    exact h

/-- The time budget of both channels holds after every time-ordered run that starts in
a state where it holds. -/
theorem runSCL_inBudget (s : State) (ts : List Sample)
    (hord : timeOrdered s.lastSCLSampleElapsed ts)
    (h0 : (channel0 s).inBudget s.lastSCLSampleElapsed)
    (h1 : (channel1 s).inBudget s.lastSCLSampleElapsed) :
    (channel0 (runSCL s ts)).inBudget (runSCL s ts).lastSCLSampleElapsed ∧
    (channel1 (runSCL s ts)).inBudget (runSCL s ts).lastSCLSampleElapsed := by
  induction ts generalizing s with
  | nil => exact ⟨h0, h1⟩
  | cons t ts ih =>
    exact ih _ (timeOrdered_step s t ts hord)
      (updateSCL_inBudget0 s t.elapsed t.adc0 t.adc1 hord.1 h0)
      (updateSCL_inBudget1 s t.elapsed t.adc0 t.adc1 hord.1 h1)

theorem firstBudget_le (last : Nat) : firstBudget last ≤ 20050 := by
  unfold firstBudget
  split_ifs <;> omega

theorem secondBudget_le (last : Nat) : secondBudget last ≤ 20049 := by
  unfold secondBudget
  split_ifs <;> omega

/-- The scoring state and the throttle time stamp after `updateSCL` depend only on the
scoring state and the throttle time stamp before it. -/
theorem updateSCL_core_congr (s u : State) (elapsed : Nat) (adc0 adc1 : Int)
    (h0 : channel0 s = channel0 u) (h1 : channel1 s = channel1 u)
    (hl : s.lastSCLSampleElapsed = u.lastSCLSampleElapsed) :
    channel0 (updateSCL s elapsed adc0 adc1) = channel0 (updateSCL u elapsed adc0 adc1) ∧
    channel1 (updateSCL s elapsed adc0 adc1) = channel1 (updateSCL u elapsed adc0 adc1) ∧
    (updateSCL s elapsed adc0 adc1).lastSCLSampleElapsed
      = (updateSCL u elapsed adc0 adc1).lastSCLSampleElapsed := by
  have hthr : throttlePassed s elapsed ↔ throttlePassed u elapsed := by
    unfold throttlePassed
    rw [hl]
  by_cases hs : throttlePassed s elapsed
  · have hu := hthr.mp hs
    by_cases hin : 5000 ≤ elapsed ∧ elapsed ≤ 45000
    · rw [updateSCL_window s elapsed adc0 adc1 hs hin.1 hin.2,
        updateSCL_window u elapsed adc0 adc1 hu hin.1 hin.2]
      simp only [channel0, channel1, Channel.mk.injEq] at h0 h1 ⊢
      obtain ⟨a1, a2, a3, a4, a5⟩ := h0
      obtain ⟨b1, b2, b3, b4, b5⟩ := h1
      simp only [a1, a2, a3, a4, a5, b1, b2, b3, b4, b5, and_self]
    · rw [updateSCL_outside s elapsed adc0 adc1 hs (by omega),
        updateSCL_outside u elapsed adc0 adc1 hu (by omega)]
      exact ⟨h0, h1, rfl⟩
  · have hu : ¬ throttlePassed u elapsed := fun h => hs (hthr.mpr h)
    rw [updateSCL_throttled s elapsed adc0 adc1 hs,
      updateSCL_throttled u elapsed adc0 adc1 hu]
    exact ⟨h0, h1, hl⟩

theorem runSCL_core_congr (s u : State) (ts : List Sample)
    (h0 : channel0 s = channel0 u) (h1 : channel1 s = channel1 u)
    (hl : s.lastSCLSampleElapsed = u.lastSCLSampleElapsed) :
    channel0 (runSCL s ts) = channel0 (runSCL u ts) ∧
    channel1 (runSCL s ts) = channel1 (runSCL u ts) ∧
    (runSCL s ts).lastSCLSampleElapsed = (runSCL u ts).lastSCLSampleElapsed := by
  induction ts generalizing s u with
  | nil => exact ⟨h0, h1, hl⟩
  | cons t ts ih =>
    obtain ⟨c0, c1, cl⟩ := updateSCL_core_congr s u t.elapsed t.adc0 t.adc1 h0 h1 hl
    exact ih _ _ c0 c1 cl

/-- A run of `loopConduttanza` returns, and its scoring state is that of the run of the
`updateSCL` calls it makes: the one-shot evaluation does not touch it. -/
theorem runConduttanza_core (s : State) (ts : List Tick) :
    ∃ s1, runConduttanza s ts = some s1 ∧
      channel0 s1 = channel0 (runSCL s (ts.map (Tick.toSample s.experimentStart))) ∧
      channel1 s1 = channel1 (runSCL s (ts.map (Tick.toSample s.experimentStart))) ∧
      s1.lastSCLSampleElapsed
        = (runSCL s (ts.map (Tick.toSample s.experimentStart))).lastSCLSampleElapsed := by
  induction ts generalizing s with
  | nil => exact ⟨s, rfl, rfl, rfl, rfl⟩
  | cons t ts ih =>
    have hstep : ∃ s1, loopConduttanza s t = some s1 ∧
        s1.experimentStart = s.experimentStart ∧
        channel0 s1 = channel0 (updateSCL s (usub t.now s.experimentStart) t.adc0 t.adc1) ∧
        channel1 s1 = channel1 (updateSCL s (usub t.now s.experimentStart) t.adc0 t.adc1) ∧
        s1.lastSCLSampleElapsed
          = (updateSCL s (usub t.now s.experimentStart) t.adc0 t.adc1).lastSCLSampleElapsed := by
      refine ⟨_, loopConduttanza_eq s t, ?_⟩
      have hf := (updateSCL_frame s (usub t.now s.experimentStart) t.adc0 t.adc1).2.2
      split_ifs
      · exact ⟨hf, rfl, rfl, rfl⟩
      · exact ⟨hf, rfl, rfl, rfl⟩
    obtain ⟨s1, e1, hst, c0, c1, cl⟩ := hstep
    obtain ⟨s2, e2, d0, d1, dl⟩ := ih s1
    rw [hst] at d0 d1 dl
    obtain ⟨g0, g1, gl⟩ := runSCL_core_congr s1 _
      (ts.map (Tick.toSample s.experimentStart)) c0 c1 cl
    refine ⟨s2, ?_, ?_, ?_, ?_⟩
    · simp [runConduttanza, e1, e2]
    · exact d0.trans g0
    · exact d1.trans g1
    · exact dl.trans gl

/-! ## Claims about runs of `updateSCL` -/

/-- C13 : the channel-1 state after `updateSCL` is determined by the channel-1 state
before it, the throttle time stamp, the elapsed time and the channel-1 reading: it is
the same for any two channel-0 readings and any two states that differ in anything
else, in particular in their channel-0 state; and symmetrically for channel 0. -/
theorem updateSCL_channels_independent (s u : State) (elapsed : Nat)
    (adc0 adc0' adc1 adc1' : Int)
    (hl : s.lastSCLSampleElapsed = u.lastSCLSampleElapsed) :
    (channel1 s = channel1 u →
      channel1 (updateSCL s elapsed adc0 adc1) = channel1 (updateSCL u elapsed adc0' adc1)) ∧
    (channel0 s = channel0 u →
      channel0 (updateSCL s elapsed adc0 adc1) = channel0 (updateSCL u elapsed adc0 adc1')) := by
  have hthr : throttlePassed s elapsed ↔ throttlePassed u elapsed := by
    unfold throttlePassed
    rw [hl]
  by_cases hs : throttlePassed s elapsed
  · have hu := hthr.mp hs
    by_cases hin : 5000 ≤ elapsed ∧ elapsed ≤ 45000
    · rw [updateSCL_window s elapsed adc0 adc1 hs hin.1 hin.2,
        updateSCL_window u elapsed adc0' adc1 hu hin.1 hin.2,
        updateSCL_window u elapsed adc0 adc1' hu hin.1 hin.2]
      constructor
      · intro h
        simp only [channel1, Channel.mk.injEq] at h ⊢
        obtain ⟨h1, h2, h3, h4, h5⟩ := h
        simp only [h1, h2, h3, h4, h5, and_self]
      · intro h
        simp only [channel0, Channel.mk.injEq] at h ⊢
        obtain ⟨h1, h2, h3, h4, h5⟩ := h
        simp only [h1, h2, h3, h4, h5, and_self]
    · rw [updateSCL_outside s elapsed adc0 adc1 hs (by omega),
        updateSCL_outside u elapsed adc0' adc1 hu (by omega),
        updateSCL_outside u elapsed adc0 adc1' hu (by omega)]
      exact ⟨fun h => h, fun h => h⟩
  · have hu : ¬ throttlePassed u elapsed := fun h => hs (hthr.mpr h)
    rw [updateSCL_throttled s elapsed adc0 adc1 hs,
      updateSCL_throttled u elapsed adc0' adc1 hu,
      updateSCL_throttled u elapsed adc0 adc1' hu]
    exact ⟨fun h => h, fun h => h⟩

/-- C13 (witness) : at `elapsed = 5000` channel 1 ends in the same state whether channel
0 reads the rejected value 600 from the initial state or the accepted value 123 from a
state with other channel-0 accumulators. -/
theorem updateSCL_channels_independent_witness :
    channel1 (updateSCL State.init 5000 423 600)
      = channel1 (updateSCL
          { State.init with
            lastRaw0 := 100, firstHalfSumSCL := (700, 0), firstHalfCountSCL := (7, 0) }
          5000 900 600) ∧
    (channel1 (updateSCL State.init 5000 423 600)).lastAccepted = 423 :=
  ⟨(updateSCL_channels_independent State.init
      { State.init with
        lastRaw0 := 100, firstHalfSumSCL := (700, 0), firstHalfCountSCL := (7, 0) }
      5000 423 900 600 0 rfl).1 rfl,
    by decide⟩

/-- C12 : in a run of `updateSCL` calls whose elapsed times are non-decreasing (and not
before the throttle time stamp), the elapsed times of any two processed samples are at
least 50 ms apart, however many calls there are; and for `unsigned long` values in
time order a call with `elapsed - lastSCLSampleElapsed < 50` leaves the whole state
unchanged while any other call sets `lastSCLSampleElapsed = elapsed`. -/
theorem updateSCL_throttle (s : State) (ts : List Sample)
    (hord : timeOrdered s.lastSCLSampleElapsed ts) :
    (processedTimes s ts).Pairwise (fun a b => a + 50 ≤ b) ∧
    (∀ x ∈ processedTimes s ts, s.lastSCLSampleElapsed + 50 ≤ x) ∧
    (∀ (u : State) (elapsed : Nat) (adc0 adc1 : Int),
      u.lastSCLSampleElapsed ≤ elapsed → elapsed < ULONG_RANGE →
      (elapsed - u.lastSCLSampleElapsed < 50 → updateSCL u elapsed adc0 adc1 = u) ∧
      (¬ elapsed - u.lastSCLSampleElapsed < 50 →
        (updateSCL u elapsed adc0 adc1).lastSCLSampleElapsed = elapsed)) := by
  obtain ⟨h1, h2⟩ := processedTimes_spacing s ts hord
  refine ⟨h2, h1, ?_⟩
  intro u elapsed adc0 adc1 hle hb
  have hiff := throttlePassed_iff u elapsed hle hb
  constructor
  · intro hlt
    exact updateSCL_throttled u elapsed adc0 adc1 (fun h => hiff.mp h hlt)
  · intro hge
    rw [updateSCL_last, if_pos (hiff.mpr hge)]

/-- C12 (witness) : polled every 20 ms from the initial state, only the calls at 60 and
120 are processed. -/
theorem updateSCL_throttle_witness :
    timeOrdered State.init.lastSCLSampleElapsed
      [⟨20, 500, 500⟩, ⟨40, 500, 500⟩, ⟨60, 500, 500⟩, ⟨80, 500, 500⟩, ⟨100, 500, 500⟩,
        ⟨120, 500, 500⟩] ∧
    processedTimes State.init
      [⟨20, 500, 500⟩, ⟨40, 500, 500⟩, ⟨60, 500, 500⟩, ⟨80, 500, 500⟩, ⟨100, 500, 500⟩,
        ⟨120, 500, 500⟩] = [60, 120] ∧
    (processedTimes State.init
      [⟨20, 500, 500⟩, ⟨40, 500, 500⟩, ⟨60, 500, 500⟩, ⟨80, 500, 500⟩, ⟨100, 500, 500⟩,
        ⟨120, 500, 500⟩]).Pairwise (fun a b => a + 50 ≤ b) :=
  ⟨by simp [timeOrdered, State.init], by decide,
    (updateSCL_throttle State.init
      [⟨20, 500, 500⟩, ⟨40, 500, 500⟩, ⟨60, 500, 500⟩, ⟨80, 500, 500⟩, ⟨100, 500, 500⟩,
        ⟨120, 500, 500⟩] (by simp [timeOrdered, State.init])).1⟩

/-- C14 : a run of readings that are each rejected when they are processed leaves the
channel, and so its baseline, as it was: whatever the following reading `v`, the filter
accepts it after the run exactly when it accepts it before the run.  In particular a
reading that is out of range, or more than 80 away from a set baseline, is rejected
again however many times it is repeated. -/
theorem rejected_run_keeps_baseline (s : State) (ts : List Sample) :
    (rejectedRun0 s ts →
      channel0 (runSCL s ts) = channel0 s ∧
      ∀ v, sclValid v (runSCL s ts).lastRaw0 = sclValid v s.lastRaw0) ∧
    (rejectedRun1 s ts →
      channel1 (runSCL s ts) = channel1 s ∧
      ∀ v, sclValid v (runSCL s ts).lastRaw1 = sclValid v s.lastRaw1) ∧
    ((∀ t ∈ ts, ¬ specAccepts (1023 - t.adc0) s.lastRaw0) → rejectedRun0 s ts) ∧
    ((∀ t ∈ ts, ¬ specAccepts (1023 - t.adc1) s.lastRaw1) → rejectedRun1 s ts) := by
  refine ⟨?_, ?_, ?_, ?_⟩
  · intro h
    have hc := rejectedRun0_channel s ts h
    refine ⟨hc, fun v => ?_⟩
    have : (runSCL s ts).lastRaw0 = s.lastRaw0 := congrArg Channel.lastAccepted hc
    rw [this]
  · intro h
    have hc := rejectedRun1_channel s ts h
    refine ⟨hc, fun v => ?_⟩
    have : (runSCL s ts).lastRaw1 = s.lastRaw1 := congrArg Channel.lastAccepted hc
    rw [this]
  · induction ts generalizing s with
    | nil => intro _; trivial
    | cons t ts ih =>
      intro h
      have h0 := h t (List.mem_cons_self _ _)
      have hc : channel0 (runSCL s [t]) = channel0 s :=
        rejectedRun0_channel s [t] ⟨h0, trivial⟩
      have hl : (updateSCL s t.elapsed t.adc0 t.adc1).lastRaw0 = s.lastRaw0 :=
        congrArg Channel.lastAccepted hc
      refine ⟨h0, ih _ ?_⟩
      intro t' ht'
      rw [hl]
      exact h t' (List.mem_cons_of_mem _ ht')
  · induction ts generalizing s with
    | nil => intro _; trivial
    | cons t ts ih =>
      intro h
      have h0 := h t (List.mem_cons_self _ _)
      have hc : channel1 (runSCL s [t]) = channel1 s :=
        rejectedRun1_channel s [t] ⟨h0, trivial⟩
      have hl : (updateSCL s t.elapsed t.adc0 t.adc1).lastRaw1 = s.lastRaw1 :=
        congrArg Channel.lastAccepted hc
      refine ⟨h0, ih _ ?_⟩
      intro t' ht'
      rw [hl]
      exact h t' (List.mem_cons_of_mem _ ht')

/-- C14 (witness) : from the empty baseline the reading 600 is rejected and leaves the
baseline empty, the following reading 150 is accepted and becomes the baseline; then
the reading 300, more than 80 away, is rejected three times in a row and the baseline
is still 150. -/
theorem rejected_run_keeps_baseline_witness :
    rejectedRun0 State.init [⟨5000, 423, 0⟩] ∧
    (runSCL State.init [⟨5000, 423, 0⟩]).lastRaw0 = -1 ∧
    sclValid 150 (runSCL State.init [⟨5000, 423, 0⟩]).lastRaw0 = true ∧
    (runSCL State.init [⟨5000, 423, 0⟩, ⟨5050, 873, 0⟩]).lastRaw0 = 150 ∧
    channel0 (runSCL (runSCL State.init [⟨5000, 423, 0⟩, ⟨5050, 873, 0⟩])
        [⟨5100, 723, 0⟩, ⟨5150, 723, 0⟩, ⟨5200, 723, 0⟩])
      = channel0 (runSCL State.init [⟨5000, 423, 0⟩, ⟨5050, 873, 0⟩]) := by
  have h1 : rejectedRun0 State.init [⟨5000, 423, 0⟩] :=
    (rejected_run_keeps_baseline State.init [⟨5000, 423, 0⟩]).2.2.1 (by decide)
  have h2 := (rejected_run_keeps_baseline State.init [⟨5000, 423, 0⟩]).1 h1
  refine ⟨h1, congrArg Channel.lastAccepted h2.1, ?_, by decide, ?_⟩
  · rw [h2.2 150]
    decide
  · have h3 := (rejected_run_keeps_baseline
      (runSCL State.init [⟨5000, 423, 0⟩, ⟨5050, 873, 0⟩])
      [⟨5100, 723, 0⟩, ⟨5150, 723, 0⟩, ⟨5200, 723, 0⟩]).2.2.1 (by decide)
    exact ((rejected_run_keeps_baseline
      (runSCL State.init [⟨5000, 423, 0⟩, ⟨5050, 873, 0⟩])
      [⟨5100, 723, 0⟩, ⟨5150, 723, 0⟩, ⟨5200, 723, 0⟩]).1 h3).1

/-- C15 : after every run of `updateSCL` calls from the initial state with
non-decreasing elapsed times, for each channel the first-window count is at most 401,
the second-window count at most 400, each sum is between 0 and 500 times its count and
at most 200500; so the counts are values of a 16-bit `int` and the sums values of a
32-bit `long`: no accumulator overflows.  The same holds after every run of
`loopConduttanza` ticks (after `setupConduttanza`) that makes these calls. -/
theorem run_counts_bounded (ts : List Sample) (hord : timeOrdered 0 ts) :
    ((channel0 (runSCL State.init ts)).bounded ∧ (channel0 (runSCL State.init ts)).fitsTarget) ∧
    ((channel1 (runSCL State.init ts)).bounded ∧ (channel1 (runSCL State.init ts)).fitsTarget) ∧
    (∀ (start : Nat) (ticks : List Tick), ticks.map (Tick.toSample start) = ts →
      ∃ s1, runConduttanza (setupConduttanza State.init start) ticks = some s1 ∧
        ((channel0 s1).bounded ∧ (channel0 s1).fitsTarget) ∧
        ((channel1 s1).bounded ∧ (channel1 s1).fitsTarget)) := by
  have hb := runSCL_inBudget State.init ts hord
    (by unfold Channel.inBudget channel0 firstBudget secondBudget State.init; simp)
    (by unfold Channel.inBudget channel1 firstBudget secondBudget State.init; simp)
  have hr := runSCL_inRange State.init ts init_inRange.1 init_inRange.2
  have hf := firstBudget_le (runSCL State.init ts).lastSCLSampleElapsed
  have hg := secondBudget_le (runSCL State.init ts).lastSCLSampleElapsed
  have key : ∀ c : Channel, c.inRange →
      c.inBudget (runSCL State.init ts).lastSCLSampleElapsed → c.bounded ∧ c.fitsTarget := by
    intro c hc hbud
    obtain ⟨-, r1, r2, r3, r4, r5, r6⟩ := hc
    obtain ⟨b1, b2⟩ := hbud
    unfold Channel.bounded Channel.fitsTarget
    refine ⟨⟨⟨r1, ?_⟩, ⟨r2, ?_⟩, ⟨r3, r4, ?_⟩, ⟨r5, r6, ?_⟩⟩,
      ⟨⟨?_, ?_⟩, ⟨?_, ?_⟩, ⟨?_, ?_⟩, ⟨?_, ?_⟩⟩⟩ <;> omega
  have k0 := key _ hr.1 hb.1
  have k1 := key _ hr.2 hb.2
  refine ⟨k0, k1, ?_⟩
  intro start ticks hmap
  obtain ⟨s1, e1, c0, c1, -⟩ := runConduttanza_core (setupConduttanza State.init start) ticks
  have hst : (setupConduttanza State.init start).experimentStart = start := rfl
  rw [hst, hmap] at c0 c1
  obtain ⟨g0, g1, -⟩ := runSCL_core_congr (setupConduttanza State.init start) State.init ts
    rfl rfl rfl
  refine ⟨s1, e1, ?_, ?_⟩
  · rw [c0, g0]
    exact k0
  · rw [c1, g1]
    exact k1

/-- C15 (witness) : polled every 25 ms across the first-window boundary, the run is
time-ordered and channel 0 counts two samples in the first window and one in the
second. -/
theorem run_counts_bounded_witness :
    timeOrdered 0 [⟨24950, 900, 900⟩, ⟨24975, 900, 900⟩, ⟨25000, 900, 900⟩,
      ⟨25025, 900, 900⟩, ⟨25050, 900, 900⟩] ∧
    (channel0 (runSCL State.init [⟨24950, 900, 900⟩, ⟨24975, 900, 900⟩,
      ⟨25000, 900, 900⟩, ⟨25025, 900, 900⟩, ⟨25050, 900, 900⟩])).firstCount = 2 ∧
    (channel0 (runSCL State.init [⟨24950, 900, 900⟩, ⟨24975, 900, 900⟩,
      ⟨25000, 900, 900⟩, ⟨25025, 900, 900⟩, ⟨25050, 900, 900⟩])).secondCount = 1 ∧
    (channel0 (runSCL State.init [⟨24950, 900, 900⟩, ⟨24975, 900, 900⟩,
      ⟨25000, 900, 900⟩, ⟨25025, 900, 900⟩, ⟨25050, 900, 900⟩])).bounded :=
  ⟨by simp [timeOrdered], by decide, by decide,
    (run_counts_bounded [⟨24950, 900, 900⟩, ⟨24975, 900, 900⟩, ⟨25000, 900, 900⟩,
      ⟨25025, 900, 900⟩, ⟨25050, 900, 900⟩] (by simp [timeOrdered])).1.1⟩

end Alua
